import Mathlib

/-!
# Earth–Moon simulator: the frame loop of `src/main.cpp`

The program is one frame loop over global variables.  The globals become the
fields of `Sim`, one iteration of `while (!WindowShouldClose())` becomes the
function `frame`, and what raylib reports during a frame becomes the record
`Input`.  Drawing reads the state and writes nothing, so it is left out.

Numbers.  `double` and `float` values are elements of a linear ordered field
`α` and every operation is exact: the narrowing cast `(float)` is the identity
and no rounding happens.  The definitions are computable, so they run over
`ℚ`; theorems that need a true square root are used over `ℝ`.  The library
function `sqrt` / `sqrtf` is a parameter `sqrt : α → α` of every definition
that calls it.
-/

set_option linter.unusedSectionVars false

namespace LunarSim

/-- `struct Vec2d { double x, y; }`. -/
structure Vec2d (α : Type) where
  x : α
  y : α

/-- The raylib type `Vector2` (two `float`s). -/
structure Vector2 (α : Type) where
  x : α
  y : α

/-- The raylib type `Rectangle`. -/
structure Rectangle (α : Type) where
  x : α
  y : α
  width : α
  height : α

/-- `enum SpawnState`. -/
inductive SpawnState where
  | SPAWN_IDLE
  | SPAWN_PLACING
  | SPAWN_AIMING
  deriving DecidableEq, Repr

/-- `struct Body`; the fields `name` and `color` are only read by the drawing
code and are left out. -/
structure Body (α : Type) where
  mass : α
  radius : α
  pos : Vec2d α
  vel : Vec2d α
  affectedByGravity : Bool
  affectsOthers : Bool

/-- The global variables of the program, and the three bodies. -/
structure Sim (α : Type) where
  timeScale : α
  metersPerPixel : α
  spawnState : SpawnState
  spawnPos : Vec2d α
  /-- The buffer `char speedInput[32]`. -/
  speedInput : List Char
  speedInputLen : Int
  simulationPaused : Bool
  probeTrail : List (Vec2d α)
  trailTimer : α
  probeAlive : Bool
  cameraCenter : Vec2d α
  earth : Body α
  moon : Body α
  probe : Body α

/-- What raylib reports in one frame. -/
structure Input (α : Type) where
  /-- `GetFrameTime()`. -/
  realDt : α
  /-- `GetMouseWheelMove()`. -/
  wheel : α
  /-- `IsKeyDown(KEY_A)`, and likewise D, W, S. -/
  keyA : Bool
  keyD : Bool
  keyW : Bool
  keyS : Bool
  /-- `IsKeyPressed(KEY_UP)`, `IsKeyPressed(KEY_DOWN)`. -/
  keyUp : Bool
  keyDown : Bool
  /-- `GetMousePosition()`. -/
  mouse : Vector2 α
  /-- `IsMouseButtonPressed(MOUSE_LEFT_BUTTON)`. -/
  mousePressed : Bool
  /-- The queue read by `GetCharPressed()`: its calls return these values in
  turn, and `0` once the queue is empty. -/
  chars : List Int
  keyBackspace : Bool
  keyEnter : Bool
  keyEscape : Bool

section Constants

variable (α : Type) [LinearOrderedField α]

def G : α := 6.67430e-11

def maxStep : α := 10.0

def MAX_TRAIL_POINTS : Nat := 10000

def TRAIL_INTERVAL : α := 0.5

def screenWidth : Int := 1200

def screenHeight : Int := 800

end Constants

section Transform

variable {α : Type} [LinearOrderedField α]

/-- `ToScreen`, lines 88-98. -/
def ToScreen (worldPos : Vec2d α) (screenWidth screenHeight : Int) (metersPerPixel : α)
    (cameraCenter : Vec2d α) : Vector2 α :=
  let relX := worldPos.x - cameraCenter.x
  let relY := worldPos.y - cameraCenter.y
  { x := (screenWidth : α) / 2.0 + relX / metersPerPixel
    y := (screenHeight : α) / 2.0 - relY / metersPerPixel }

/-- `ToWorld`, lines 102-112. -/
def ToWorld (screenPos : Vector2 α) (screenWidth screenHeight : Int) (metersPerPixel : α)
    (cameraCenter : Vec2d α) : Vec2d α :=
  let relX := (screenPos.x - (screenWidth : α) / 2.0) * metersPerPixel
  let relY := ((screenHeight : α) / 2.0 - screenPos.y) * metersPerPixel
  { x := cameraCenter.x + relX
    y := cameraCenter.y + relY }

end Transform

section Text

variable {α : Type} [LinearOrderedField α]

/-- The character `'\0'`. -/
def NUL : Char := Char.ofNat 0

/-- The string a `char` buffer holds for the C library: the characters before
the first `'\0'`. -/
def cString (buf : List Char) : List Char :=
  buf.takeWhile (fun c => c != NUL)

/-- The assignment `buf[i] = c` on a buffer.  An index outside the buffer is
undefined behaviour in C; it is modelled as writing nothing. -/
def writeAt (buf : List Char) (i : Int) (c : Char) : List Char :=
  if 0 ≤ i ∧ i < buf.length then buf.set i.toNat c else buf

/-- The C library's `isspace` in the "C" locale. -/
def isspace (c : Char) : Bool :=
  c.toNat = 32 || (9 ≤ c.toNat && c.toNat ≤ 13)

/-- The value of a run of decimal digits, most significant first. -/
def digitsValue (ds : List Char) : Nat :=
  ds.foldl (fun acc c => 10 * acc + (c.toNat - 48)) 0

/-- The exponent part of a decimal floating constant: `e` or `E`, an optional
sign and at least one digit; anything else is no exponent part and counts 0. -/
def exponentValue (cs : List Char) : Int :=
  match cs with
  | [] => 0
  | c :: r =>
    if c = 'e' ∨ c = 'E' then
      match r with
      | [] => 0
      | d :: r2 =>
        if d = '-' then
          if (r2.takeWhile Char.isDigit).isEmpty then 0
          else -(digitsValue (r2.takeWhile Char.isDigit) : Int)
        else if d = '+' then (digitsValue (r2.takeWhile Char.isDigit) : Int)
        else (digitsValue (r.takeWhile Char.isDigit) : Int)
    else 0

/-- The decimal floating constant at the head of a string, as `strtod` reads
it (ISO C 7.22.1.3): white space is skipped, then an optional sign, then the
longest run of decimal digits that may hold one `.`, then an optional exponent
part; the rest of the string is ignored.  The result is the sign (true for
`-`), the digits of the run as a number and the power of ten that scales it;
`none` when the run has no digit at all, in which case nothing is converted.
The hexadecimal, `inf` and `nan` forms all need a letter and are not
modelled. -/
def parseDecimal (str : List Char) : Option (Bool × Nat × Int) :=
  let s0 := str.dropWhile isspace
  let neg : Bool := s0.head? = some '-'
  let s1 := if s0.head? = some '-' ∨ s0.head? = some '+' then s0.tail else s0
  let ip := s1.takeWhile Char.isDigit
  let s2 := s1.dropWhile Char.isDigit
  let fp := if s2.head? = some '.' then s2.tail.takeWhile Char.isDigit else []
  let s3 := if s2.head? = some '.' then s2.tail.dropWhile Char.isDigit else s2
  if ip.isEmpty && fp.isEmpty then none
  else some (neg, digitsValue (ip ++ fp), exponentValue s3 - (fp.length : Int))

/-- The C library function `atof` (`strtod` with the end pointer dropped) on
decimal input: the value of the constant `parseDecimal` reads, and 0 when
nothing is converted. -/
def atof (str : List Char) : α :=
  match parseDecimal str with
  | none => 0
  | some (neg, m, e) =>
    let v : α := (m : α) * (10 : α) ^ e
    if neg then -v else v

end Text

section Frame

variable {α : Type} [LinearOrderedField α] [FloorRing α]

/-- The raylib function `CheckCollisionPointRec`: the point lies in the
rectangle, the left and top edges included. -/
def CheckCollisionPointRec (point : Vector2 α) (rec : Rectangle α) : Bool :=
  decide (point.x ≥ rec.x) && decide (point.x < rec.x + rec.width) &&
    decide (point.y ≥ rec.y) && decide (point.y < rec.y + rec.height)

/-- Zoom control, lines 134-144. -/
def zoomControl (wheel : α) (s : Sim α) : Sim α :=
  if wheel ≠ 0 then
    let zoomFactor : α := 1.15
    let m1 := if wheel > 0 then s.metersPerPixel / zoomFactor else s.metersPerPixel
    let m2 := if wheel < 0 then m1 * zoomFactor else m1
    let m3 := if m2 < 1.0 then 1.0 else m2
    let m4 := if m3 > 1.0e9 then 1.0e9 else m3
    { s with metersPerPixel := m4 }
  else s

/-- Pan control, lines 148-152. -/
def panControl (inp : Input α) (s : Sim α) : Sim α :=
  let panSpeed := s.metersPerPixel * 600.0
  let x1 := if inp.keyA then s.cameraCenter.x - panSpeed * inp.realDt else s.cameraCenter.x
  let x2 := if inp.keyD then x1 + panSpeed * inp.realDt else x1
  let y1 := if inp.keyW then s.cameraCenter.y + panSpeed * inp.realDt else s.cameraCenter.y
  let y2 := if inp.keyS then y1 - panSpeed * inp.realDt else y1
  { s with cameraCenter := { x := x2, y := y2 } }

/-- Timescale control, lines 155-167. -/
def timescaleControl (inp : Input α) (s : Sim α) : Sim α :=
  if s.spawnState = SpawnState.SPAWN_IDLE then
    let t1 :=
      if inp.keyUp then
        (if s.timeScale * 2.0 > 100000.0 then 100000.0 else s.timeScale * 2.0)
      else s.timeScale
    let t2 :=
      if inp.keyDown then
        (if t1 / 2.0 < 0.125 then 0.125 else t1 / 2.0)
      else t1
    { s with timeScale := t2 }
  else s

/-- The rectangle `spawnButton`, line 170. -/
def spawnButton : Rectangle α :=
  { x := (screenWidth : α) - 150, y := 10, width := 140, height := 40 }

/-- The test of line 202: the key is a digit or `'.'`. -/
def isSpeedKey (key : Int) : Bool :=
  (decide (key ≥ ('0'.toNat : Int)) && decide (key ≤ ('9'.toNat : Int))) ||
    decide (key = ('.'.toNat : Int))

/-- The cast `(char)key` of line 206.  It is only reached with a digit or
`'.'`, where nothing is cut off. -/
def castChar (key : Int) : Char :=
  Char.ofNat key.toNat

/-- One pass of the body of `while (key > 0)`, lines 202-210. -/
def typeChar (key : Int) (s : Sim α) : Sim α :=
  if isSpeedKey key then
    if s.speedInputLen < 31 then
      let b1 := writeAt s.speedInput s.speedInputLen (castChar key)
      let n := s.speedInputLen + 1
      { s with speedInput := writeAt b1 n NUL, speedInputLen := n }
    else s
  else s

/-- The loop `while (key > 0)` over the values `GetCharPressed()` returns,
lines 199-212: it ends at the first value that is not positive, which is the
`0` of the empty queue at the latest. -/
def typeChars : List Int → Sim α → Sim α
  | [], s => s
  | key :: rest, s => if key > 0 then typeChars rest (typeChar key s) else s

/-- Backspace, lines 213-217. -/
def backspace (pressed : Bool) (s : Sim α) : Sim α :=
  if pressed ∧ s.speedInputLen > 0 then
    let n := s.speedInputLen - 1
    { s with speedInputLen := n, speedInput := writeAt s.speedInput n NUL }
  else s

/-- The launch speed, lines 222-223. -/
def launchSpeed (buf : List Char) : α :=
  let speed : α := atof (cString buf)
  if speed < 0 then 0 else speed

/-- The body of `if (IsKeyPressed(KEY_ENTER))`, lines 222-254. -/
def confirm (sqrt : α → α) (mouse : Vector2 α) (s : Sim α) : Sim α :=
  let speed : α := launchSpeed s.speedInput
  let spawnScreen := ToScreen s.spawnPos screenWidth screenHeight s.metersPerPixel s.cameraCenter
  let dx := mouse.x - spawnScreen.x
  let dy := mouse.y - spawnScreen.y
  let len := sqrt (dx * dx + dy * dy)
  let probe1 : Body α :=
    if len > 1.0 then
      let dirX := dx / len
      let dirY := -dy / len
      { s.probe with pos := s.spawnPos, vel := { x := dirX * speed, y := dirY * speed } }
    else
      { s.probe with pos := s.spawnPos, vel := { x := 0, y := 0 } }
  { s with
    probe := probe1
    probeTrail := []
    trailTimer := 0.0
    probeAlive := true
    spawnState := SpawnState.SPAWN_IDLE
    simulationPaused := false }

/-- The body of `if (IsKeyPressed(KEY_ESCAPE))`, lines 192-193 and 260-261. -/
def cancel (s : Sim α) : Sim α :=
  { s with spawnState := SpawnState.SPAWN_IDLE, simulationPaused := false }

/-- The branch `spawnState == SPAWN_AIMING`, lines 198-262. -/
def aiming (sqrt : α → α) (inp : Input α) (s : Sim α) : Sim α :=
  let s1 := typeChars inp.chars s
  let s2 := backspace inp.keyBackspace s1
  let s3 := if inp.keyEnter then confirm sqrt inp.mouse s2 else s2
  if inp.keyEscape then cancel s3 else s3

/-- The branch `spawnState == SPAWN_PLACING`, lines 184-194. -/
def placing (buttonHovered : Bool) (inp : Input α) (s : Sim α) : Sim α :=
  let s1 :=
    if inp.mousePressed && !buttonHovered then
      { s with
        spawnPos := ToWorld inp.mouse screenWidth screenHeight s.metersPerPixel s.cameraCenter
        spawnState := SpawnState.SPAWN_AIMING }
    else s
  if inp.keyEscape then cancel s1 else s1

/-- The branch `spawnState == SPAWN_IDLE`, lines 175-179. -/
def idle (buttonHovered : Bool) (inp : Input α) (s : Sim α) : Sim α :=
  if buttonHovered && inp.mousePressed then
    { s with spawnState := SpawnState.SPAWN_PLACING, simulationPaused := true }
  else s

/-- The spawn button and the spawn state machine, lines 170-263. -/
def spawnControl (sqrt : α → α) (inp : Input α) (s : Sim α) : Sim α :=
  let buttonHovered := CheckCollisionPointRec inp.mouse (spawnButton : Rectangle α)
  match s.spawnState with
  | SpawnState.SPAWN_IDLE => idle buttonHovered inp s
  | SpawnState.SPAWN_PLACING => placing buttonHovered inp s
  | SpawnState.SPAWN_AIMING => aiming sqrt inp s

/-- Everything a frame does before the physics step, lines 134-263. -/
def handleInput (sqrt : α → α) (inp : Input α) (s : Sim α) : Sim α :=
  spawnControl sqrt inp (timescaleControl inp (panControl inp (zoomControl inp.wheel s)))

end Frame

section Physics

variable {α : Type} [LinearOrderedField α] [FloorRing α]

/-- The Moon's update in one substep, lines 277-289. -/
def moonStep (sqrt : α → α) (h : α) (earth moon : Body α) : Body α :=
  let dxME := earth.pos.x - moon.pos.x
  let dyME := earth.pos.y - moon.pos.y
  let d2ME := dxME * dxME + dyME * dyME
  let dME := sqrt d2ME
  let invD3ME := 1.0 / (dME * dME * dME + 1e-12)
  let axMoon := G α * earth.mass * dxME * invD3ME
  let ayMoon := G α * earth.mass * dyME * invD3ME
  let velX := moon.vel.x + axMoon * h
  let velY := moon.vel.y + ayMoon * h
  { moon with
    vel := { x := velX, y := velY }
    pos := { x := moon.pos.x + velX * h, y := moon.pos.y + velY * h } }

/-- The distance `dPE` of line 301, from the probe to the Earth. -/
def distPE (sqrt : α → α) (earth probe : Body α) : α :=
  let dxPE := earth.pos.x - probe.pos.x
  let dyPE := earth.pos.y - probe.pos.y
  let d2PE := dxPE * dxPE + dyPE * dyPE
  sqrt d2PE

/-- The distance `dPM` of line 311, from the probe to the Moon. -/
def distPM (sqrt : α → α) (moon probe : Body α) : α :=
  let dxPM := moon.pos.x - probe.pos.x
  let dyPM := moon.pos.y - probe.pos.y
  let d2PM := dxPM * dxPM + dyPM * dyPM
  sqrt d2PM

/-- The probe's update in one substep, lines 294-320; `moon` is the Moon
after its own update of this substep. -/
def probeStep (sqrt : α → α) (h : α) (earth moon probe : Body α) : Body α :=
  let axProbe0 : α := 0.0
  let ayProbe0 : α := 0.0
  let dxPE := earth.pos.x - probe.pos.x
  let dyPE := earth.pos.y - probe.pos.y
  let dPE := distPE sqrt earth probe
  let invD3PE := 1.0 / (dPE * dPE * dPE + 1e-12)
  let axProbe1 := axProbe0 + G α * earth.mass * dxPE * invD3PE
  let ayProbe1 := ayProbe0 + G α * earth.mass * dyPE * invD3PE
  let dxPM := moon.pos.x - probe.pos.x
  let dyPM := moon.pos.y - probe.pos.y
  let dPM := distPM sqrt moon probe
  let invD3PM := 1.0 / (dPM * dPM * dPM + 1e-12)
  let axProbe := axProbe1 + G α * moon.mass * dxPM * invD3PM
  let ayProbe := ayProbe1 + G α * moon.mass * dyPM * invD3PM
  let velX := probe.vel.x + axProbe * h
  let velY := probe.vel.y + ayProbe * h
  { probe with
    vel := { x := velX, y := velY }
    pos := { x := probe.pos.x + velX * h, y := probe.pos.y + velY * h } }

/-- Collision detection, lines 323-330, for a probe that is alive: the value
of `probeAlive` afterwards.  `dPE` and `dPM` are the distances computed at
lines 301 and 311. -/
def aliveAfterCollision (dPE dPM : α) (earth moon : Body α) : Bool :=
  if dPE ≤ earth.radius then false
  else if dPM ≤ moon.radius then false
  else true

/-- The trail after `push_back(pos)` and the eviction, lines 339-343. -/
def pushTrail (trail : List (Vec2d α)) (pos : Vec2d α) : List (Vec2d α) :=
  let t1 := trail ++ [pos]
  if t1.length > MAX_TRAIL_POINTS then t1.tail else t1

/-- One pass of the loop `for (int s = 0; s < steps; s++)`, lines 276-346. -/
def substep (sqrt : α → α) (h : α) (s : Sim α) : Sim α :=
  let moon1 := moonStep sqrt h s.earth s.moon
  if s.probeAlive then
    let dPE := distPE sqrt s.earth s.probe
    let dPM := distPM sqrt moon1 s.probe
    let probe1 := probeStep sqrt h s.earth moon1 s.probe
    let alive1 := aliveAfterCollision dPE dPM s.earth moon1
    if alive1 then
      let timer1 := s.trailTimer + h
      if timer1 ≥ TRAIL_INTERVAL α then
        { s with
          moon := moon1
          probe := probe1
          probeAlive := alive1
          trailTimer := 0.0
          probeTrail := pushTrail s.probeTrail probe1.pos }
      else
        { s with moon := moon1, probe := probe1, probeAlive := alive1, trailTimer := timer1 }
    else
      { s with moon := moon1, probe := probe1, probeAlive := alive1 }
  else
    { s with moon := moon1 }

/-- The loop `for (int s = 0; s < steps; s++)`: `n` passes. -/
def substeps (sqrt : α → α) (h : α) : Nat → Sim α → Sim α
  | 0, s => s
  | n + 1, s => substeps sqrt h n (substep sqrt h s)

/-- The cast `(int)` of a `double` that holds the integer `z`.  Outside the
range of `int` the C standard leaves the result undefined; the model gives
`INT_MIN` there, which is what the x86-64 conversion instruction yields. -/
def toInt (z : Int) : Int :=
  if -2147483648 ≤ z ∧ z ≤ 2147483647 then z else -2147483648

/-- The number of substeps, lines 270-271. -/
def stepCount (dt : α) : Int :=
  if dt > maxStep α then toInt ⌈dt / maxStep α⌉ else 1

/-- The physics time step, lines 266-351. -/
def physicsStep (sqrt : α → α) (realDt : α) (s : Sim α) : Sim α :=
  if !s.simulationPaused then
    let dt := realDt * s.timeScale
    let steps := stepCount dt
    let h := dt / (steps : α)
    substeps sqrt h steps.toNat s
  else s

/-- One iteration of `while (!WindowShouldClose())`, without the drawing. -/
def frame (sqrt : α → α) (inp : Input α) (s : Sim α) : Sim α :=
  physicsStep sqrt inp.realDt (handleInput sqrt inp s)

/-- The initial value of the global `earth`. -/
def earth0 : Body α :=
  { mass := 5.972e24, radius := 6.371e6, pos := { x := 0.0, y := 0.0 }
    vel := { x := 0.0, y := 0.0 }, affectedByGravity := true, affectsOthers := true }

/-- The initial value of the global `moon`. -/
def moon0 : Body α :=
  { mass := 7.34767309e22, radius := 1.7371e6, pos := { x := 384.4e6, y := 0.0 }
    vel := { x := 0.0, y := 1022.0 }, affectedByGravity := true, affectsOthers := true }

/-- The global `probe` when the loop is entered: its initial value with the
velocity set at lines 125-127. -/
def probe0 (sqrt : α → α) : Body α :=
  { mass := 1000.0, radius := 2.0e5, pos := { x := 6.371e6 + 400e3, y := 0.0 }
    vel := { x := 0.0, y := sqrt (G α * (earth0 : Body α).mass / (6.371e6 + 400e3)) }
    affectedByGravity := true, affectsOthers := false }

/-- The state when the frame loop is entered.  The buffer holds `"1000"`
and is zero-filled behind it. -/
def initial (sqrt : α → α) : Sim α :=
  { timeScale := 1.0
    metersPerPixel := 2.0e6
    spawnState := SpawnState.SPAWN_IDLE
    spawnPos := { x := 0, y := 0 }
    speedInput := ['1', '0', '0', '0'] ++ List.replicate 28 NUL
    speedInputLen := 4
    simulationPaused := false
    probeTrail := []
    trailTimer := 0.0
    probeAlive := true
    cameraCenter := { x := 0.0, y := 0.0 }
    earth := earth0
    moon := moon0
    probe := probe0 sqrt }

/-- The states the program can be in at the top of the frame loop: the
initial state, and what a frame makes of such a state for any input whose
frame time is not negative. -/
inductive Reachable (sqrt : α → α) : Sim α → Prop where
  | init : Reachable sqrt (initial sqrt)
  | step (inp : Input α) (s : Sim α) :
      Reachable sqrt s → 0 ≤ inp.realDt → Reachable sqrt (frame sqrt inp s)

/-- The frames of a list of inputs, one after the other. -/
def run (sqrt : α → α) : List (Input α) → Sim α → Sim α
  | [], s => s
  | inp :: rest, s => run sqrt rest (frame sqrt inp s)

/-- The frame confirms a spawn: Enter is pressed while the state machine is
in `SPAWN_AIMING` (the branch of line 196 is the only one that reads Enter). -/
def confirms (inp : Input α) (s : Sim α) : Prop :=
  s.spawnState = SpawnState.SPAWN_AIMING ∧ inp.keyEnter = true

/-- No frame of the run confirms a spawn. -/
def noConfirm (sqrt : α → α) : List (Input α) → Sim α → Prop
  | [], _ => True
  | inp :: rest, s => ¬ confirms inp s ∧ noConfirm sqrt rest (frame sqrt inp s)

/-- A frame in which nothing is pressed, typed or scrolled. -/
def quietInput (realDt : α) (mouse : Vector2 α) : Input α :=
  { realDt := realDt, wheel := 0, keyA := false, keyD := false, keyW := false, keyS := false
    keyUp := false, keyDown := false, mouse := mouse, mousePressed := false, chars := []
    keyBackspace := false, keyEnter := false, keyEscape := false }

/-- The speed text: the first `speedInputLen` characters of the buffer. -/
def speedText (s : Sim α) : List Char :=
  s.speedInput.take s.speedInputLen.toNat

/-- The clock is paused exactly when the spawn state machine is not idle. -/
def pausedIffSpawning (s : Sim α) : Prop :=
  s.simulationPaused = true ↔ s.spawnState ≠ SpawnState.SPAWN_IDLE

/-- The function `sqrt` is the non-negative square root on non-negative
arguments. -/
def IsSqrt (sqrt : α → α) : Prop :=
  ∀ x : α, 0 ≤ x → 0 ≤ sqrt x ∧ sqrt x * sqrt x = x

/-- The initial state taken to `SPAWN_AIMING` with candidate position
`(1e7, 0)`: the clock is paused, the speed text is still `"1000"`. -/
def aimingState (sqrt : α → α) : Sim α :=
  { initial sqrt with
    spawnState := SpawnState.SPAWN_AIMING
    simulationPaused := true
    spawnPos := { x := 1e7, y := 0 } }

/-- A frame in which Enter is pressed while the pointer is at pixel
`(605, 300)`; under the initial camera that is 100 pixels straight above the
screen position `(605, 400)` of the world point `(1e7, 0)`. -/
def enterAbove : Input α :=
  { quietInput (1 / 60 : α) ({ x := 605, y := 300 } : Vector2 α) with keyEnter := true }

/-- A frame in which only Escape is pressed. -/
def escapeOnly : Input α :=
  { quietInput (1 / 60 : α) ({ x := 605, y := 300 } : Vector2 α) with keyEscape := true }

/-- A frame in which Enter and Escape are both pressed, the pointer at pixel
`(605, 300)`. -/
def enterAndEscape : Input α :=
  { quietInput (1 / 60 : α) ({ x := 605, y := 300 } : Vector2 α) with
    keyEnter := true, keyEscape := true }

/-- The speed buffer is well formed: it has its 32 bytes, the length is in
`0..31`, the first `speedInputLen` characters are digits or `'.'`, and the
character behind them is the terminating NUL. -/
def SpeedOK (s : Sim α) : Prop :=
  s.speedInput.length = 32 ∧ 0 ≤ s.speedInputLen ∧ s.speedInputLen ≤ 31 ∧
    (∀ c ∈ speedText s, c.isDigit = true ∨ c = '.') ∧
    s.speedInput[s.speedInputLen.toNat]? = some NUL

/-- An aiming state whose speed text has been deleted: the buffer holds 32
NUL characters. -/
def emptyText (sqrt : α → α) : Sim α :=
  { aimingState sqrt with speedInput := List.replicate 32 NUL, speedInputLen := 0 }

/-- The click on the spawn button: the pointer at pixel `(1100, 30)`. -/
def clickButton : Input α :=
  { quietInput (1 / 60 : α) ({ x := 1100, y := 30 } : Vector2 α) with mousePressed := true }

/-- The click that places the candidate: the pointer at pixel `(605, 400)`. -/
def clickPlace : Input α :=
  { quietInput (1 / 60 : α) ({ x := 605, y := 400 } : Vector2 α) with mousePressed := true }

/-- The click that places the candidate at `(8e6, 0)`, some 1600 km above the
Earth's surface: the pointer at pixel `(604, 400)`. -/
def clickNear : Input α :=
  { quietInput (1 / 60 : α) ({ x := 604, y := 400 } : Vector2 α) with mousePressed := true }

/-- The initial state taken to `SPAWN_AIMING` with candidate position
`(8e6, 0)`. -/
def placedState (sqrt : α → α) : Sim α :=
  { initial sqrt with
    spawnState := SpawnState.SPAWN_AIMING
    simulationPaused := true
    spawnPos := { x := 8e6, y := 0 } }

/-- A frame of 10 s in which `000` is typed behind the speed text `1000` and
Enter is pressed, the pointer at pixel `(504, 400)`, 100 pixels to the left
of the candidate's screen position. -/
def launchInward : Input α :=
  { quietInput (10 : α) ({ x := 504, y := 400 } : Vector2 α) with
    chars := [48, 48, 48], keyEnter := true }

/-- The state in which the physics step of the launch frame starts. -/
def launchedState (sqrt : α → α) : Sim α :=
  handleInput sqrt launchInward (placedState sqrt)

/-- The zoom and the timescale are within their documented bounds. -/
def viewInRange (s : Sim α) : Prop :=
  (1.0 ≤ s.metersPerPixel ∧ s.metersPerPixel ≤ 1.0e9) ∧
    (0.125 ≤ s.timeScale ∧ s.timeScale ≤ 100000.0)

/-- A frame in which the Up arrow is pressed. -/
def pressUp : Input α :=
  { quietInput (1 / 60 : α) ({ x := 605, y := 300 } : Vector2 α) with keyUp := true }

/-- The largest value of an `int`. -/
def INT_MAX : Int := 2147483647

/-- The acceleration of the specification, section 4.1: body `A` pulls body
`B` with `a = G * mass_A * (pos_A - pos_B) / (|pos_A - pos_B|^3 + ε)`,
`ε = 1e-12`. -/
def specAccel (sqrt : α → α) (A B : Body α) : Vec2d α :=
  let dx := A.pos.x - B.pos.x
  let dy := A.pos.y - B.pos.y
  let d := sqrt (dx * dx + dy * dy)
  { x := G α * A.mass * dx / (d ^ 3 + 1e-12)
    y := G α * A.mass * dy / (d ^ 3 + 1e-12) }

/-- The specification's step 1 for the Moon: `vel' = vel + h * a(Earth -> Moon)`
at the Moon's old position, then `pos' = pos + h * vel'`. -/
def specMoonStep (sqrt : α → α) (h : α) (earth moon : Body α) : Body α :=
  let a := specAccel sqrt earth moon
  let vx := moon.vel.x + h * a.x
  let vy := moon.vel.y + h * a.y
  { moon with
    vel := { x := vx, y := vy }
    pos := { x := moon.pos.x + h * vx, y := moon.pos.y + h * vy } }

/-- The specification's step 2 for the probe: `vel' = vel + h * (a(Earth ->
probe) + a(Moon -> probe))` with the Moon already updated, then
`pos' = pos + h * vel'`. -/
def specProbeStep (sqrt : α → α) (h : α) (earth moon1 probe : Body α) : Body α :=
  let aE := specAccel sqrt earth probe
  let aM := specAccel sqrt moon1 probe
  let vx := probe.vel.x + h * (aE.x + aM.x)
  let vy := probe.vel.y + h * (aE.y + aM.y)
  { probe with
    vel := { x := vx, y := vy }
    pos := { x := probe.pos.x + h * vx, y := probe.pos.y + h * vy } }

/-- The initial state after the click on the spawn button. -/
def placingState (sqrt : α → α) : Sim α :=
  { initial sqrt with spawnState := SpawnState.SPAWN_PLACING, simulationPaused := true }

/-- The indices of `speedInput` written by one pass of the body of
`while (key > 0)`: lines 206 and 208. -/
def typeCharWrites (key : Int) (s : Sim α) : List Int :=
  if isSpeedKey key then
    if s.speedInputLen < 31 then [s.speedInputLen, s.speedInputLen + 1] else []
  else []

/-- The indices of `speedInput` written by the loop `while (key > 0)`, in
order. -/
def typeCharsWrites : List Int → Sim α → List Int
  | [], _ => []
  | key :: rest, s =>
    if key > 0 then typeCharWrites key s ++ typeCharsWrites rest (typeChar key s) else []

/-- The index of `speedInput` written by Backspace, line 216. -/
def backspaceWrites (pressed : Bool) (s : Sim α) : List Int :=
  if pressed ∧ s.speedInputLen > 0 then [s.speedInputLen - 1] else []

/-- The indices of `speedInput` written in a frame: those of the typing loop
and of Backspace, which only the `SPAWN_AIMING` branch runs, on the state the
camera control leaves. -/
def bufferWrites (inp : Input α) (s : Sim α) : List Int :=
  match s.spawnState with
  | SpawnState.SPAWN_AIMING =>
    let s0 := timescaleControl inp (panControl inp (zoomControl inp.wheel s))
    typeCharsWrites inp.chars s0 ++ backspaceWrites inp.keyBackspace (typeChars inp.chars s0)
  | _ => []

/-- A frame in which the wheel is turned one notch up (zoom in). -/
def wheelUp : Input α :=
  { quietInput (1 / 60 : α) ({ x := 605, y := 300 } : Vector2 α) with wheel := 1 }

/-- A square root for running the model over `ℚ`: exact on the squares of
rationals, rounded down (to a multiple of `1 / den`) elsewhere. -/
def sqrtQ (q : ℚ) : ℚ :=
  (Nat.sqrt (q.num.toNat * q.den) : ℚ) / (q.den : ℚ)

/-- A frame in which `12a3.5` is typed and Backspace is pressed. -/
def typeAndDelete : Input ℚ :=
  { quietInput (1 / 60 : ℚ) ({ x := 605, y := 300 } : Vector2 ℚ) with
    chars := [49, 50, 97, 51, 46, 53], keyBackspace := true }

end Physics


section Lemmas

variable {α : Type} [LinearOrderedField α] [FloorRing α]

/-- Typing characters writes the speed buffer and its length and nothing else. -/
theorem typeChars_frame (cs : List Int) (s : Sim α) :
    ∃ b n, typeChars cs s = { s with speedInput := b, speedInputLen := n } := by
  induction cs generalizing s with
  | nil => exact ⟨s.speedInput, s.speedInputLen, rfl⟩
  | cons key rest ih =>
    simp only [typeChars]
    split_ifs with hk
    · obtain ⟨b, n, hbn⟩ := ih (typeChar key s)
      rw [hbn]
      unfold typeChar
      split_ifs
      · exact ⟨b, n, rfl⟩
      · exact ⟨b, n, rfl⟩
      · exact ⟨b, n, rfl⟩
    · exact ⟨s.speedInput, s.speedInputLen, rfl⟩

/-- Backspace writes the speed buffer and its length and nothing else. -/
theorem backspace_frame (pressed : Bool) (s : Sim α) :
    ∃ b n, backspace pressed s = { s with speedInput := b, speedInputLen := n } := by
  unfold backspace
  split_ifs
  · exact ⟨_, _, rfl⟩
  · exact ⟨s.speedInput, s.speedInputLen, rfl⟩

/-- The text editing of the aiming branch, as one step. -/
theorem edit_frame (inp : Input α) (s : Sim α) :
    ∃ b n, backspace inp.keyBackspace (typeChars inp.chars s)
      = { s with speedInput := b, speedInputLen := n } := by
  obtain ⟨b, n, h⟩ := typeChars_frame inp.chars s
  obtain ⟨b2, n2, h2⟩ := backspace_frame inp.keyBackspace (typeChars inp.chars s)
  rw [h2, h]
  exact ⟨b2, n2, rfl⟩

theorem pushTrail_length_le (trail : List (Vec2d α)) (pos : Vec2d α)
    (h : trail.length ≤ MAX_TRAIL_POINTS) :
    (pushTrail trail pos).length ≤ MAX_TRAIL_POINTS := by
  unfold pushTrail
  simp only [List.length_append, List.length_singleton]
  split_ifs with hgt
  · simp only [List.length_tail, List.length_append, List.length_singleton]
    omega
  · simp only [List.length_append, List.length_singleton]
    omega

theorem substep_trail_le (sqrt : α → α) (h : α) (s : Sim α)
    (hs : s.probeTrail.length ≤ MAX_TRAIL_POINTS) :
    (substep sqrt h s).probeTrail.length ≤ MAX_TRAIL_POINTS := by
  unfold substep
  simp only
  split_ifs
  · exact pushTrail_length_le _ _ hs
  · exact hs
  · exact hs
  · exact hs

theorem substeps_trail_le (sqrt : α → α) (h : α) (n : Nat) (s : Sim α)
    (hs : s.probeTrail.length ≤ MAX_TRAIL_POINTS) :
    (substeps sqrt h n s).probeTrail.length ≤ MAX_TRAIL_POINTS := by
  induction n generalizing s with
  | zero => exact hs
  | succ n ih => exact ih _ (substep_trail_le sqrt h s hs)

theorem physicsStep_trail_le (sqrt : α → α) (realDt : α) (s : Sim α)
    (hs : s.probeTrail.length ≤ MAX_TRAIL_POINTS) :
    (physicsStep sqrt realDt s).probeTrail.length ≤ MAX_TRAIL_POINTS := by
  unfold physicsStep
  split_ifs
  · exact substeps_trail_le sqrt _ _ s hs
  · exact hs

/-- Zoom, pan and timescale control write `metersPerPixel`, `cameraCenter`
and `timeScale` and nothing else. -/
theorem view_frame (inp : Input α) (s : Sim α) :
    ∃ m c t, timescaleControl inp (panControl inp (zoomControl inp.wheel s))
      = { s with metersPerPixel := m, cameraCenter := c, timeScale := t } := by
  have hz : ∃ m, zoomControl inp.wheel s = { s with metersPerPixel := m } := by
    unfold zoomControl
    by_cases hw : inp.wheel ≠ 0
    · rw [if_pos hw]; exact ⟨_, rfl⟩
    · rw [if_neg hw]; exact ⟨s.metersPerPixel, rfl⟩
  obtain ⟨m, hm⟩ := hz
  have hp : ∀ s1 : Sim α, ∃ c, panControl inp s1 = { s1 with cameraCenter := c } :=
    fun s1 => ⟨_, rfl⟩
  obtain ⟨c, hc⟩ := hp (zoomControl inp.wheel s)
  have ht : ∀ s1 : Sim α, ∃ t, timescaleControl inp s1 = { s1 with timeScale := t } := by
    intro s1
    unfold timescaleControl
    by_cases hi : s1.spawnState = SpawnState.SPAWN_IDLE
    · rw [if_pos hi]; exact ⟨_, rfl⟩
    · rw [if_neg hi]; exact ⟨s1.timeScale, rfl⟩
  obtain ⟨t, ht⟩ := ht (panControl inp (zoomControl inp.wheel s))
  rw [ht, hc, hm]
  exact ⟨m, c, t, rfl⟩

@[simp] theorem cancel_probeTrail (s : Sim α) : (cancel s).probeTrail = s.probeTrail := rfl

@[simp] theorem confirm_probeTrail (sqrt : α → α) (mouse : Vector2 α) (s : Sim α) :
    (confirm sqrt mouse s).probeTrail = [] := rfl

/-- The aiming branch leaves the trail as it is or empties it. -/
theorem aiming_trail (sqrt : α → α) (inp : Input α) (s : Sim α) :
    (aiming sqrt inp s).probeTrail = s.probeTrail ∨ (aiming sqrt inp s).probeTrail = [] := by
  obtain ⟨b, n, he⟩ := edit_frame inp s
  unfold aiming
  simp only [he]
  split_ifs
  · right; rfl
  · left; rfl
  · right; rfl
  · left; rfl

/-- The spawn state machine leaves the trail as it is or empties it. -/
theorem spawnControl_trail (sqrt : α → α) (inp : Input α) (s : Sim α) :
    (spawnControl sqrt inp s).probeTrail = s.probeTrail ∨
      (spawnControl sqrt inp s).probeTrail = [] := by
  unfold spawnControl
  dsimp only
  split
  · left
    unfold idle
    split_ifs <;> rfl
  · left
    unfold placing
    dsimp only
    split_ifs <;> rfl
  · exact aiming_trail sqrt inp s

/-- Input handling leaves the trail as it is or empties it. -/
theorem handleInput_trail (sqrt : α → α) (inp : Input α) (s : Sim α) :
    (handleInput sqrt inp s).probeTrail = s.probeTrail ∨
      (handleInput sqrt inp s).probeTrail = [] := by
  obtain ⟨m, c, t, hv⟩ := view_frame inp s
  have ht : (timescaleControl inp (panControl inp (zoomControl inp.wheel s))).probeTrail
      = s.probeTrail := by rw [hv]
  unfold handleInput
  rw [← ht]
  exact spawnControl_trail sqrt inp _

/-- A substep writes the Moon, the probe, its liveness, the trail and the
trail timer, and nothing else. -/
theorem substep_frame (sqrt : α → α) (h : α) (s : Sim α) :
    ∃ m p a t tr, substep sqrt h s
      = { s with moon := m, probe := p, probeAlive := a, trailTimer := t, probeTrail := tr } := by
  unfold substep
  dsimp only
  split_ifs
  · exact ⟨_, _, _, _, _, rfl⟩
  · exact ⟨_, _, _, _, s.probeTrail, rfl⟩
  · exact ⟨_, _, _, s.trailTimer, s.probeTrail, rfl⟩
  · exact ⟨_, s.probe, s.probeAlive, s.trailTimer, s.probeTrail, rfl⟩

theorem substeps_frame (sqrt : α → α) (h : α) (n : Nat) (s : Sim α) :
    ∃ m p a t tr, substeps sqrt h n s
      = { s with moon := m, probe := p, probeAlive := a, trailTimer := t, probeTrail := tr } := by
  induction n generalizing s with
  | zero => exact ⟨s.moon, s.probe, s.probeAlive, s.trailTimer, s.probeTrail, rfl⟩
  | succ n ih =>
    obtain ⟨m, p, a, t, tr, h1⟩ := substep_frame sqrt h s
    obtain ⟨m2, p2, a2, t2, tr2, h2⟩ := ih (substep sqrt h s)
    simp only [substeps]
    rw [h2, h1]
    exact ⟨m2, p2, a2, t2, tr2, rfl⟩

theorem physicsStep_frame (sqrt : α → α) (realDt : α) (s : Sim α) :
    ∃ m p a t tr, physicsStep sqrt realDt s
      = { s with moon := m, probe := p, probeAlive := a, trailTimer := t, probeTrail := tr } := by
  unfold physicsStep
  split_ifs
  · exact substeps_frame sqrt _ _ s
  · exact ⟨s.moon, s.probe, s.probeAlive, s.trailTimer, s.probeTrail, rfl⟩

/-- A substep leaves a dead probe dead, and touches neither it nor the trail. -/
theorem substep_dead (sqrt : α → α) (h : α) (s : Sim α) (hd : s.probeAlive = false) :
    substep sqrt h s = { s with moon := moonStep sqrt h s.earth s.moon } := by
  unfold substep
  simp [hd]

theorem substeps_dead (sqrt : α → α) (h : α) (n : Nat) (s : Sim α)
    (hd : s.probeAlive = false) : (substeps sqrt h n s).probeAlive = false := by
  induction n generalizing s with
  | zero => exact hd
  | succ n ih =>
    simp only [substeps]
    apply ih
    rw [substep_dead sqrt h s hd]
    exact hd

theorem physicsStep_dead (sqrt : α → α) (realDt : α) (s : Sim α)
    (hd : s.probeAlive = false) : (physicsStep sqrt realDt s).probeAlive = false := by
  unfold physicsStep
  split_ifs
  · exact substeps_dead sqrt _ _ s hd
  · exact hd

/-- Without a confirm the spawn state machine does not write `probeAlive`. -/
theorem spawnControl_alive (sqrt : α → α) (inp : Input α) (s : Sim α)
    (hno : ¬ confirms inp s) :
    (spawnControl sqrt inp s).probeAlive = s.probeAlive := by
  unfold spawnControl
  dsimp only
  split
  · unfold idle
    split_ifs <;> rfl
  · unfold placing
    dsimp only
    split_ifs <;> rfl
  · rename_i hst
    have hE : inp.keyEnter = false := by
      cases hk : inp.keyEnter
      · rfl
      · exact absurd ⟨hst, hk⟩ hno
    obtain ⟨b, n, he⟩ := edit_frame inp s
    unfold aiming
    simp only [he, hE, Bool.false_eq_true, if_false]
    split_ifs <;> rfl

/-- Without a confirm input handling does not write `probeAlive`. -/
theorem handleInput_alive (sqrt : α → α) (inp : Input α) (s : Sim α)
    (hno : ¬ confirms inp s) :
    (handleInput sqrt inp s).probeAlive = s.probeAlive := by
  obtain ⟨m, c, t, hv⟩ := view_frame inp s
  have ha : (timescaleControl inp (panControl inp (zoomControl inp.wheel s))).probeAlive
      = s.probeAlive := by rw [hv]
  have hst : (timescaleControl inp (panControl inp (zoomControl inp.wheel s))).spawnState
      = s.spawnState := by rw [hv]
  unfold handleInput
  rw [← ha]
  apply spawnControl_alive
  intro hc
  exact hno ⟨hst ▸ hc.1, hc.2⟩

theorem frame_dead (sqrt : α → α) (inp : Input α) (s : Sim α)
    (hd : s.probeAlive = false) (hno : ¬ confirms inp s) :
    (frame sqrt inp s).probeAlive = false := by
  unfold frame
  apply physicsStep_dead
  rw [handleInput_alive sqrt inp s hno]
  exact hd

/-- The spawn state machine keeps the pause flag in step with its state. -/
theorem spawnControl_paused (sqrt : α → α) (inp : Input α) (s : Sim α)
    (hs : pausedIffSpawning s) : pausedIffSpawning (spawnControl sqrt inp s) := by
  unfold pausedIffSpawning at hs ⊢
  unfold spawnControl
  dsimp only
  split
  · rename_i hst
    unfold idle
    split_ifs
    · simp
    · rw [hst] at hs ⊢
      exact hs
  · rename_i hst
    unfold placing cancel
    dsimp only
    rw [hst] at hs
    have hp : s.simulationPaused = true := hs.2 (by simp)
    split_ifs
    · simp
    · simp
    · simp [hp]
    · simp [hp, hst]
  · rename_i hst
    rw [hst] at hs
    have hp : s.simulationPaused = true := hs.2 (by simp)
    obtain ⟨b, n, he⟩ := edit_frame inp s
    unfold aiming cancel
    simp only [he]
    split_ifs
    · simp
    · simp
    · simp [confirm]
    · simp [hp, hst]

/-- Input handling keeps the pause flag in step with the spawn state. -/
theorem handleInput_paused (sqrt : α → α) (inp : Input α) (s : Sim α)
    (hs : pausedIffSpawning s) : pausedIffSpawning (handleInput sqrt inp s) := by
  obtain ⟨m, c, t, hv⟩ := view_frame inp s
  unfold handleInput
  apply spawnControl_paused
  rw [hv]
  exact hs

/-- The physics step writes neither the pause flag nor the spawn state. -/
theorem physicsStep_paused (sqrt : α → α) (realDt : α) (s : Sim α)
    (hs : pausedIffSpawning s) : pausedIffSpawning (physicsStep sqrt realDt s) := by
  obtain ⟨m, p, a, t, tr, h⟩ := physicsStep_frame sqrt realDt s
  rw [h]
  exact hs

/-- At the top of the frame loop the clock is paused exactly when the spawn
state machine is not idle. -/
theorem reachable_paused (sqrt : α → α) (s : Sim α) (hs : Reachable sqrt s) :
    pausedIffSpawning s := by
  induction hs with
  | init => simp [pausedIffSpawning, initial]
  | step inp s _ _ ih =>
    unfold frame
    exact physicsStep_paused sqrt _ _ (handleInput_paused sqrt inp s ih)

/-- A substep with a live probe: the new Moon, the new probe and the outcome
of the collision test. -/
theorem substep_alive (sqrt : α → α) (h : α) (s : Sim α) (ha : s.probeAlive = true) :
    (substep sqrt h s).earth = s.earth ∧
      (substep sqrt h s).moon = moonStep sqrt h s.earth s.moon ∧
      (substep sqrt h s).probe
        = probeStep sqrt h s.earth (moonStep sqrt h s.earth s.moon) s.probe ∧
      (substep sqrt h s).probeAlive
        = aliveAfterCollision (distPE sqrt s.earth s.probe)
            (distPM sqrt (moonStep sqrt h s.earth s.moon) s.probe) s.earth
            (moonStep sqrt h s.earth s.moon) := by
  unfold substep
  simp only [ha, if_true]
  split_ifs with h1 h2
  · exact ⟨rfl, rfl, rfl, rfl⟩
  · exact ⟨rfl, rfl, rfl, rfl⟩
  · exact ⟨rfl, rfl, rfl, rfl⟩

theorem launchSpeed_nonneg (buf : List Char) : (0 : α) ≤ launchSpeed buf := by
  unfold launchSpeed
  dsimp only
  split_ifs with h
  · exact le_refl 0
  · exact not_lt.mp h

/-- A true square root gives back a non-negative number from its square. -/
theorem IsSqrt.sqrt_mul_self {sqrt : α → α} (hs : IsSqrt sqrt) (a : α) (ha : 0 ≤ a) :
    sqrt (a * a) = a := by
  obtain ⟨h0, h1⟩ := hs (a * a) (mul_self_nonneg a)
  exact (mul_self_inj_of_nonneg h0 ha).mp h1

theorem realSqrt_isSqrt : IsSqrt Real.sqrt :=
  fun x hx => ⟨Real.sqrt_nonneg x, Real.mul_self_sqrt hx⟩

/-- The Moon after one substep of 10 s from its initial state. -/
theorem moon_after_substep :
    (moonStep Real.sqrt 10 (earth0 : Body ℝ) moon0).pos.y = 10220 ∧
      (3.8e8 ≤ (moonStep Real.sqrt 10 (earth0 : Body ℝ) moon0).pos.x ∧
        (moonStep Real.sqrt 10 (earth0 : Body ℝ) moon0).pos.x ≤ 3.9e8) ∧
      (moonStep Real.sqrt 10 (earth0 : Body ℝ) moon0).mass = 7.34767309e22 ∧
      (moonStep Real.sqrt 10 (earth0 : Body ℝ) moon0).radius = 1.7371e6 := by
  have hs : Real.sqrt (147763360000000000 : ℝ) = 384400000 := by
    rw [show (147763360000000000 : ℝ) = 384400000 ^ 2 by norm_num]
    exact Real.sqrt_sq (by norm_num)
  refine ⟨?_, ⟨?_, ?_⟩, ?_, ?_⟩
  · norm_num [moonStep, earth0, moon0, G, hs]
  · norm_num [moonStep, earth0, moon0, G, hs]
  · norm_num [moonStep, earth0, moon0, G, hs]
  · norm_num [moonStep, earth0, moon0]
  · norm_num [moonStep, earth0, moon0]

/-- With Enter pressed the aiming branch leaves the probe `confirm` builds. -/
theorem aiming_enter_probe (sqrt : α → α) (inp : Input α) (s : Sim α)
    (hE : inp.keyEnter = true) :
    (aiming sqrt inp s).probe
      = (confirm sqrt inp.mouse (backspace inp.keyBackspace (typeChars inp.chars s))).probe := by
  unfold aiming
  simp only [hE, if_true]
  split_ifs <;> rfl

/-- The speed text of the initial state reads as 1000. -/
theorem initial_speed (sqrt : α → α) :
    parseDecimal (cString (initial sqrt).speedInput) = some (false, 1000, 0) := by
  rfl

/-- Zoom, pan and timescale control leave the spawn state as it is. -/
theorem view_spawnState (inp : Input α) (s : Sim α) :
    (timescaleControl inp (panControl inp (zoomControl inp.wheel s))).spawnState
      = s.spawnState := by
  obtain ⟨m, c, t, h⟩ := view_frame inp s
  rw [h]

/-- In `SPAWN_AIMING` input handling is the aiming branch, run after the
camera control. -/
theorem handleInput_aiming (sqrt : α → α) (inp : Input α) (s : Sim α)
    (hst : s.spawnState = SpawnState.SPAWN_AIMING) :
    handleInput sqrt inp s
      = aiming sqrt inp (timescaleControl inp (panControl inp (zoomControl inp.wheel s))) := by
  have h := view_spawnState inp s
  rw [hst] at h
  unfold handleInput spawnControl
  simp only [h]

/-- In `SPAWN_PLACING` input handling is the placing branch, run after the
camera control. -/
theorem handleInput_placing (sqrt : α → α) (inp : Input α) (s : Sim α)
    (hst : s.spawnState = SpawnState.SPAWN_PLACING) :
    handleInput sqrt inp s
      = placing (CheckCollisionPointRec inp.mouse (spawnButton : Rectangle α)) inp
          (timescaleControl inp (panControl inp (zoomControl inp.wheel s))) := by
  have h := view_spawnState inp s
  rw [hst] at h
  unfold handleInput spawnControl
  simp only [h]

/-- What `confirm` leaves, field by field. -/
theorem confirm_fields (sqrt : α → α) (mouse : Vector2 α) (s : Sim α) :
    (confirm sqrt mouse s).probeTrail = [] ∧
      (confirm sqrt mouse s).trailTimer = 0 ∧
      (confirm sqrt mouse s).probeAlive = true ∧
      (confirm sqrt mouse s).spawnState = SpawnState.SPAWN_IDLE ∧
      (confirm sqrt mouse s).simulationPaused = false ∧
      (confirm sqrt mouse s).probe.mass = s.probe.mass ∧
      (confirm sqrt mouse s).probe.radius = s.probe.radius ∧
      (confirm sqrt mouse s).probe.affectedByGravity = s.probe.affectedByGravity ∧
      (confirm sqrt mouse s).probe.affectsOthers = s.probe.affectsOthers ∧
      (confirm sqrt mouse s).earth = s.earth ∧
      (confirm sqrt mouse s).moon = s.moon := by
  refine ⟨rfl, ?_, rfl, rfl, rfl, ?_, ?_, ?_, ?_, rfl, rfl⟩
  · show (0.0 : α) = 0
    norm_num
  all_goals
    simp only [confirm]
    split_ifs <;> rfl

/-- With Enter pressed the aiming branch ends in what `confirm` leaves, but
for the two fields `cancel` writes, to which it gives the same values. -/
theorem aiming_enter (sqrt : α → α) (inp : Input α) (s : Sim α) (hE : inp.keyEnter = true) :
    aiming sqrt inp s
        = confirm sqrt inp.mouse (backspace inp.keyBackspace (typeChars inp.chars s)) ∨
      aiming sqrt inp s
        = cancel (confirm sqrt inp.mouse (backspace inp.keyBackspace (typeChars inp.chars s))) := by
  unfold aiming
  simp only [hE, if_true]
  split_ifs
  · right; rfl
  · left; rfl

/-- In `SPAWN_AIMING` with Enter pressed, input handling puts the probe at
the candidate position. -/
theorem handleInput_enter_pos (sqrt : α → α) (inp : Input α) (s : Sim α)
    (hst : s.spawnState = SpawnState.SPAWN_AIMING) (hE : inp.keyEnter = true) :
    (handleInput sqrt inp s).probe.pos = s.spawnPos := by
  obtain ⟨m, c, t, hv⟩ := view_frame inp s
  obtain ⟨b, n, he⟩ := edit_frame inp
    (timescaleControl inp (panControl inp (zoomControl inp.wheel s)))
  rw [handleInput_aiming sqrt inp s hst, aiming_enter_probe sqrt inp _ hE, he, hv]
  simp only [confirm]
  split_ifs <;> rfl

theorem set_at_length (t r : List Char) (a c : Char) :
    (t ++ a :: r).set t.length c = t ++ c :: r := by
  induction t with
  | nil => rfl
  | cons x t ih => simp [ih]

theorem set_at_length_succ (t r : List Char) (a b c : Char) :
    (t ++ a :: b :: r).set (t.length + 1) c = t ++ a :: c :: r := by
  induction t with
  | nil => rfl
  | cons x t ih => simp [ih]

theorem getElem?_at_length_succ (t r : List Char) (a b : Char) :
    (t ++ a :: b :: r)[t.length + 1]? = some b := by
  induction t with
  | nil => simp
  | cons x t ih => simpa using ih

/-- An accepted key is stored as a digit or `'.'`. -/
theorem castChar_speedKey (key : Int) (hk : isSpeedKey key = true) :
    (castChar key).isDigit = true ∨ castChar key = '.' := by
  unfold isSpeedKey at hk
  simp only [Bool.or_eq_true, Bool.and_eq_true, decide_eq_true_eq] at hk
  rcases hk with ⟨h1, h2⟩ | h
  · left
    have h1' : (48 : Int) ≤ key := h1
    have h2' : key ≤ (57 : Int) := h2
    interval_cases key <;> decide
  · right
    rw [h]
    decide

/-- A well-formed buffer is its text, the NUL, and what lies behind. -/
theorem SpeedOK.shape {s : Sim α} (h : SpeedOK s) :
    ∃ r, s.speedInput = speedText s ++ NUL :: r ∧
      (speedText s).length = s.speedInputLen.toNat ∧
      r.length = 31 - s.speedInputLen.toNat := by
  obtain ⟨hlen, h0, h31, _, hnul⟩ := h
  refine ⟨s.speedInput.drop (s.speedInputLen.toNat + 1), ?_, ?_, ?_⟩
  · unfold speedText
    have h1 : s.speedInputLen.toNat < s.speedInput.length := by omega
    conv_lhs => rw [← List.take_append_drop s.speedInputLen.toNat s.speedInput]
    congr 1
    rw [List.drop_eq_getElem_cons h1]
    congr 1
    rw [List.getElem?_eq_getElem h1] at hnul
    exact Option.some.inj hnul
  · unfold speedText
    rw [List.length_take]
    omega
  · rw [List.length_drop]
    omega

/-- The C string in a well-formed buffer is the speed text. -/
theorem SpeedOK.cString_eq {s : Sim α} (h : SpeedOK s) :
    cString s.speedInput = speedText s := by
  obtain ⟨r, hr, _, _⟩ := h.shape
  obtain ⟨_, _, _, hchars, _⟩ := h
  unfold cString
  conv_lhs => rw [hr]
  rw [List.takeWhile_append_of_pos]
  · simp
  · intro c hc
    rcases hchars c hc with hd | hd
    · have : c ≠ NUL := by
        intro hn
        rw [hn] at hd
        exact absurd hd (by decide)
      simpa using this
    · rw [hd]
      decide

/-- Typing one accepted key into a well-formed buffer with room appends it. -/
theorem typeChar_append (key : Int) (s : Sim α) (h : SpeedOK s)
    (hk : isSpeedKey key = true) (hroom : s.speedInputLen < 31) :
    SpeedOK (typeChar key s) ∧ speedText (typeChar key s) = speedText s ++ [castChar key] := by
  obtain ⟨r, hr, htl, hrl⟩ := h.shape
  obtain ⟨hlen, h0, h31, hchars, hnul⟩ := h
  have hn : s.speedInputLen.toNat + 1 = (s.speedInputLen + 1).toNat := by omega
  cases r with
  | nil => simp at hrl; omega
  | cons x r =>
    have hb1 : writeAt s.speedInput s.speedInputLen (castChar key)
        = speedText s ++ castChar key :: x :: r := by
      unfold writeAt
      rw [if_pos ⟨h0, by omega⟩]
      conv_lhs => rw [hr, ← htl]
      exact set_at_length _ _ _ _
    have hb2 : writeAt (writeAt s.speedInput s.speedInputLen (castChar key))
        (s.speedInputLen + 1) NUL = speedText s ++ castChar key :: NUL :: r := by
      rw [hb1]
      unfold writeAt
      have hl : (speedText s ++ castChar key :: x :: r).length = 32 := by
        rw [← hb1]; unfold writeAt; rw [if_pos ⟨h0, by omega⟩, List.length_set]; exact hlen
      rw [if_pos ⟨by omega, by omega⟩, ← hn, ← htl]
      exact set_at_length_succ _ _ _ _ _
    have htext : speedText (typeChar key s) = speedText s ++ [castChar key] := by
      unfold typeChar
      rw [if_pos hk, if_pos hroom]
      unfold speedText
      simp only [hb2]
      rw [← hn]
      have : (List.take s.speedInputLen.toNat s.speedInput).length = s.speedInputLen.toNat := htl
      rw [List.take_append_eq_append_take, List.take_of_length_le (by omega)]
      rw [htl]
      simp [speedText]
    refine ⟨?_, htext⟩
    refine ⟨?_, ?_, ?_, ?_, ?_⟩
    · unfold typeChar
      rw [if_pos hk, if_pos hroom]
      simp only [hb2]
      have hl : (speedText s ++ castChar key :: x :: r).length = 32 := by
        rw [← hb1]; unfold writeAt; rw [if_pos ⟨h0, by omega⟩, List.length_set]; exact hlen
      simp only [List.length_append, List.length_cons] at hl ⊢
      exact hl
    · unfold typeChar
      rw [if_pos hk, if_pos hroom]
      show 0 ≤ s.speedInputLen + 1
      omega
    · unfold typeChar
      rw [if_pos hk, if_pos hroom]
      show s.speedInputLen + 1 ≤ 31
      omega
    · rw [htext]
      intro c hc
      rw [List.mem_append] at hc
      rcases hc with hc | hc
      · exact hchars c hc
      · rw [List.mem_singleton] at hc
        rw [hc]
        exact castChar_speedKey key hk
    · unfold typeChar
      rw [if_pos hk, if_pos hroom]
      simp only [hb2]
      rw [← hn, ← htl]
      exact getElem?_at_length_succ _ _ _ _

/-- The typing loop on a well-formed buffer: the accepted keys are appended in
order, up to 31 characters in all; the buffer stays well formed. -/
theorem typeChars_append (cs : List Int) (s : Sim α) (h : SpeedOK s)
    (hpos : ∀ k ∈ cs, 0 < k) :
    SpeedOK (typeChars cs s) ∧
      speedText (typeChars cs s)
        = (speedText s ++ (cs.filter isSpeedKey).map castChar).take 31 := by
  induction cs generalizing s with
  | nil =>
    refine ⟨h, ?_⟩
    obtain ⟨r, _, htl, _⟩ := h.shape
    obtain ⟨_, h0, h31, _, _⟩ := h
    simp only [typeChars, List.filter_nil, List.map_nil, List.append_nil]
    rw [List.take_of_length_le]
    omega
  | cons key rest ih =>
    have hkpos : key > 0 := hpos key (List.mem_cons_self _ _)
    have hrest : ∀ k ∈ rest, 0 < k := fun k hk => hpos k (List.mem_cons_of_mem _ hk)
    simp only [typeChars, if_pos hkpos]
    by_cases hk : isSpeedKey key = true
    · by_cases hroom : s.speedInputLen < 31
      · obtain ⟨hok, htext⟩ := typeChar_append key s h hk hroom
        obtain ⟨hok2, htext2⟩ := ih (typeChar key s) hok hrest
        refine ⟨hok2, ?_⟩
        rw [htext2, htext, List.filter_cons_of_pos hk]
        simp
      · have hsame : typeChar key s = s := by
          unfold typeChar
          rw [if_pos hk, if_neg hroom]
        rw [hsame]
        obtain ⟨hok2, htext2⟩ := ih s h hrest
        refine ⟨hok2, ?_⟩
        obtain ⟨r, _, htl, _⟩ := h.shape
        obtain ⟨_, h0, h31, _, _⟩ := h
        rw [htext2, List.take_append_of_le_length (by omega),
          List.take_append_of_le_length (by omega)]
    · have hsame : typeChar key s = s := by
        unfold typeChar
        rw [if_neg hk]
      rw [hsame, List.filter_cons_of_neg hk]
      exact ih s h hrest

theorem emptyText_ok : SpeedOK (emptyText sqrtQ) := by
  refine ⟨rfl, by decide, by decide, ?_, rfl⟩
  intro c hc
  simp [speedText, emptyText] at hc

/-- A digit or `'.'` is not the NUL character. -/
theorem speedChar_ne_NUL (c : Char) (h : c.isDigit = true ∨ c = '.') : (c != NUL) = true := by
  rcases h with hd | hd
  · have : c ≠ NUL := by
      intro hn
      rw [hn] at hd
      exact absurd hd (by decide)
    simpa using this
  · rw [hd]
    decide

/-- A digit or `'.'` is not white space. -/
theorem speedChar_not_space (c : Char) (h : c.isDigit = true ∨ c = '.') : isspace c = false := by
  rcases h with hd | hd
  · simp only [Char.isDigit, Bool.and_eq_true, decide_eq_true_eq] at hd
    have h1 : 48 ≤ c.toNat := by
      have := hd.1
      exact this
    unfold isspace
    simp
    omega
  · rw [hd]
    decide

theorem cString_text (text rest : List Char) (h : ∀ c ∈ text, c.isDigit = true ∨ c = '.') :
    cString (text ++ NUL :: rest) = text := by
  unfold cString
  rw [List.takeWhile_append_of_pos (fun c hc => speedChar_ne_NUL c (h c hc))]
  simp

/-- What is left of a text of digits and `'.'` behind its leading digits is
empty or starts with `'.'`. -/
theorem dropWhile_digits_head (text : List Char)
    (h : ∀ c ∈ text, c.isDigit = true ∨ c = '.') :
    text.dropWhile Char.isDigit = [] ∨
      ∃ t, text.dropWhile Char.isDigit = '.' :: t ∧ ∀ c ∈ t, c.isDigit = true ∨ c = '.' := by
  have hmem : ∀ c ∈ text.dropWhile Char.isDigit, c.isDigit = true ∨ c = '.' :=
    fun c hc => h c ((List.dropWhile_sublist Char.isDigit).subset hc)
  have hhead := List.head?_dropWhile_not Char.isDigit text
  cases hd : text.dropWhile Char.isDigit with
  | nil => left; rfl
  | cons c t =>
    right
    rw [hd] at hmem hhead
    simp only [List.head?_cons] at hhead
    have hc : c = '.' := by
      rcases hmem c (List.mem_cons_self _ _) with h1 | h1
      · rw [h1] at hhead
        simp at hhead
      · exact h1
    exact ⟨t, by rw [hc], fun x hx => hmem x (List.mem_cons_of_mem _ hx)⟩

/-- A string that is empty or starts with `'.'` has no exponent part. -/
theorem exponentValue_dot (t : List Char) : exponentValue ('.' :: t) = 0 := by
  unfold exponentValue
  simp

/-- What `parseDecimal` reads from a text of digits and `'.'`. -/
theorem parseDecimal_text (text : List Char) (h : ∀ c ∈ text, c.isDigit = true ∨ c = '.') :
    parseDecimal text
      = if (text.takeWhile Char.isDigit).isEmpty &&
            ((text.dropWhile Char.isDigit).tail.takeWhile Char.isDigit).isEmpty then none
        else some (false,
          digitsValue (text.takeWhile Char.isDigit ++
            (text.dropWhile Char.isDigit).tail.takeWhile Char.isDigit),
          -(((text.dropWhile Char.isDigit).tail.takeWhile Char.isDigit).length : Int)) := by
  have hs0 : text.dropWhile isspace = text := by
    cases text with
    | nil => rfl
    | cons c t =>
      have := speedChar_not_space c (h c (List.mem_cons_self _ _))
      simp [this]
  have hminus : text.head? ≠ some '-' := by
    cases text with
    | nil => simp
    | cons c t =>
      simp only [List.head?_cons, ne_eq, Option.some.injEq]
      intro hc
      have := h c (List.mem_cons_self _ _)
      rw [hc] at this
      revert this
      decide
  have hplus : text.head? ≠ some '+' := by
    cases text with
    | nil => simp
    | cons c t =>
      simp only [List.head?_cons, ne_eq, Option.some.injEq]
      intro hc
      have := h c (List.mem_cons_self _ _)
      rw [hc] at this
      revert this
      decide
  unfold parseDecimal
  simp only [hs0, hminus, hplus, or_self, if_false, decide_False]
  rcases dropWhile_digits_head text h with h2 | ⟨t, h2, ht⟩
  · simp [h2, exponentValue]
  · rcases dropWhile_digits_head t ht with h3 | ⟨u, h3, _⟩
    · simp [h2, h3, exponentValue]
    · simp [h2, h3, exponentValue_dot]

/-- A frame without wheel, pan or arrow keys leaves the camera and the
timescale as they are. -/
theorem view_quiet (dt : α) (m : Vector2 α) (p : Bool) (s : Sim α) :
    timescaleControl { quietInput dt m with mousePressed := p }
      (panControl { quietInput dt m with mousePressed := p }
        (zoomControl ({ quietInput dt m with mousePressed := p } : Input α).wheel s)) = s := by
  simp [timescaleControl, panControl, zoomControl, quietInput]

/-- The aiming state is reached from the initial state in two frames: a click
on the spawn button, then a click at pixel `(605, 400)`. -/
theorem aimingState_reachable (sqrt : α → α) : Reachable sqrt (aimingState sqrt) := by
  have h1 : frame sqrt clickButton (initial sqrt)
      = { initial sqrt with spawnState := SpawnState.SPAWN_PLACING, simulationPaused := true } := by
    unfold frame handleInput clickButton
    rw [view_quiet]
    have hb : CheckCollisionPointRec ({ x := 1100, y := 30 } : Vector2 α) spawnButton = true := by
      simp only [CheckCollisionPointRec, spawnButton, screenWidth]
      norm_num
    simp [spawnControl, idle, physicsStep, hb, initial, quietInput]
  have h2 : frame sqrt clickPlace
      { initial sqrt with spawnState := SpawnState.SPAWN_PLACING, simulationPaused := true }
      = aimingState sqrt := by
    unfold frame handleInput clickPlace
    rw [view_quiet]
    have hb : CheckCollisionPointRec ({ x := 605, y := 400 } : Vector2 α) spawnButton = false := by
      simp only [CheckCollisionPointRec, spawnButton, screenWidth]
      norm_num
    simp [spawnControl, placing, physicsStep, hb, initial, quietInput, aimingState, ToWorld,
      screenWidth, screenHeight]
    norm_num
  rw [← h2, ← h1]
  exact Reachable.step _ _ (Reachable.step _ _ Reachable.init (by norm_num [clickButton, quietInput]))
    (by norm_num [clickPlace, quietInput])
theorem take_set_self (l : List Char) (n : Nat) (a : Char) :
    (l.set n a).take n = l.take n := by
  induction l generalizing n with
  | nil => simp
  | cons x l ih =>
    cases n with
    | zero => simp
    | succ n => simp [ih]

/-- Well-formedness of the speed buffer only looks at the buffer and its
length. -/
theorem SpeedOK.congr {s s1 : Sim α} (h : SpeedOK s) (hb : s1.speedInput = s.speedInput)
    (hn : s1.speedInputLen = s.speedInputLen) : SpeedOK s1 := by
  unfold SpeedOK speedText at h ⊢
  rw [hb, hn]
  exact h

/-- Backspace keeps the speed buffer well formed. -/
theorem backspace_ok (pressed : Bool) (s : Sim α) (h : SpeedOK s) :
    SpeedOK (backspace pressed s) := by
  unfold backspace
  split_ifs with hp
  · obtain ⟨hlen, h0, h31, hchars, hnul⟩ := h
    have hpos : s.speedInputLen > 0 := hp.2
    have hw : writeAt s.speedInput (s.speedInputLen - 1) NUL
        = s.speedInput.set (s.speedInputLen - 1).toNat NUL := by
      unfold writeAt
      rw [if_pos ⟨by omega, by omega⟩]
    refine ⟨?_, ?_, ?_, ?_, ?_⟩
    · show (writeAt s.speedInput (s.speedInputLen - 1) NUL).length = 32
      rw [hw, List.length_set]
      exact hlen
    · show 0 ≤ s.speedInputLen - 1
      omega
    · show s.speedInputLen - 1 ≤ 31
      omega
    · intro c hc
      apply hchars c
      have hc2 : c ∈ List.take (s.speedInputLen - 1).toNat
          (writeAt s.speedInput (s.speedInputLen - 1) NUL) := hc
      rw [hw, take_set_self] at hc2
      exact List.take_subset_take_left _ (by omega) hc2
    · show (writeAt s.speedInput (s.speedInputLen - 1) NUL)[(s.speedInputLen - 1).toNat]?
        = some NUL
      rw [hw]
      exact List.getElem?_set_self (by omega)
  · exact h

/-- One pass of the typing loop keeps the speed buffer well formed. -/
theorem typeChar_ok (key : Int) (s : Sim α) (h : SpeedOK s) : SpeedOK (typeChar key s) := by
  by_cases hk : isSpeedKey key = true
  · by_cases hroom : s.speedInputLen < 31
    · exact (typeChar_append key s h hk hroom).1
    · unfold typeChar
      rw [if_pos hk, if_neg hroom]
      exact h
  · unfold typeChar
    rw [if_neg hk]
    exact h

/-- The typing loop keeps the speed buffer well formed. -/
theorem typeChars_ok (cs : List Int) (s : Sim α) (h : SpeedOK s) :
    SpeedOK (typeChars cs s) := by
  induction cs generalizing s with
  | nil => exact h
  | cons key rest ih =>
    simp only [typeChars]
    split_ifs
    · exact ih _ (typeChar_ok key s h)
    · exact h

/-- The spawn state machine keeps the speed buffer well formed. -/
theorem spawnControl_ok (sqrt : α → α) (inp : Input α) (s : Sim α) (h : SpeedOK s) :
    SpeedOK (spawnControl sqrt inp s) := by
  unfold spawnControl
  dsimp only
  split
  · unfold idle
    split_ifs
    · exact h.congr rfl rfl
    · exact h
  · unfold placing cancel
    dsimp only
    split_ifs <;> exact h.congr rfl rfl
  · have h2 := backspace_ok inp.keyBackspace _ (typeChars_ok inp.chars s h)
    unfold aiming cancel
    dsimp only
    split_ifs <;> exact h2

/-- In every reachable state the speed buffer is well formed. -/
theorem reachable_speedOK (sqrt : α → α) (s : Sim α) (hs : Reachable sqrt s) : SpeedOK s := by
  induction hs with
  | init =>
    refine ⟨rfl, ?_, ?_, ?_, rfl⟩
    · show (0 : Int) ≤ 4
      decide
    · show (4 : Int) ≤ 31
      decide
    intro c hc
    have hc2 : c ∈ ['1', '0', '0', '0'] := hc
    simp only [List.mem_cons, List.mem_singleton, List.not_mem_nil, or_false] at hc2
    left
    rcases hc2 with h | h | h | h <;> rw [h] <;> rfl
  | step inp s _ _ ih =>
    obtain ⟨m, c, t, hv⟩ := view_frame inp s
    obtain ⟨m2, p2, a2, t2, tr2, hp⟩ := physicsStep_frame sqrt inp.realDt (handleInput sqrt inp s)
    have h1 : SpeedOK (handleInput sqrt inp s) := by
      unfold handleInput
      apply spawnControl_ok
      rw [hv]
      exact ih.congr rfl rfl
    unfold frame
    rw [hp]
    exact h1.congr rfl rfl
/-- The state aiming at `(8e6, 0)` is reached from the initial state in two
frames: a click on the spawn button, then a click at pixel `(604, 400)`. -/
theorem placedState_reachable (sqrt : α → α) : Reachable sqrt (placedState sqrt) := by
  have h1 : frame sqrt clickButton (initial sqrt)
      = { initial sqrt with spawnState := SpawnState.SPAWN_PLACING, simulationPaused := true } := by
    unfold frame handleInput clickButton
    rw [view_quiet]
    have hb : CheckCollisionPointRec ({ x := 1100, y := 30 } : Vector2 α) spawnButton = true := by
      simp only [CheckCollisionPointRec, spawnButton, screenWidth]
      norm_num
    simp [spawnControl, idle, physicsStep, hb, initial, quietInput]
  have h2 : frame sqrt clickNear
      { initial sqrt with spawnState := SpawnState.SPAWN_PLACING, simulationPaused := true }
      = placedState sqrt := by
    unfold frame handleInput clickNear
    rw [view_quiet]
    have hb : CheckCollisionPointRec ({ x := 604, y := 400 } : Vector2 α) spawnButton = false := by
      simp only [CheckCollisionPointRec, spawnButton, screenWidth]
      norm_num
    simp [spawnControl, placing, physicsStep, hb, initial, quietInput, placedState, ToWorld,
      screenWidth, screenHeight]
    norm_num
  rw [← h2, ← h1]
  exact Reachable.step _ _ (Reachable.step _ _ Reachable.init (by norm_num [clickButton, quietInput]))
    (by norm_num [clickNear, quietInput])

/-- Input handling of the launch frame: the speed text becomes `1000000` and
the probe is put at `(8e6, 0)` with velocity `(-1e6, 0)`, alive and unpaused. -/
theorem launched_eq :
    launchedState Real.sqrt
      = { initial Real.sqrt with
          speedInput := ['1', '0', '0', '0', '0', '0', '0'] ++ List.replicate 25 NUL
          speedInputLen := 7
          spawnPos := { x := 8e6, y := 0 }
          probe := { probe0 Real.sqrt with pos := { x := 8e6, y := 0 }, vel := { x := -1e6, y := 0 } } } := by
  have hs : Real.sqrt (10000 : ℝ) = 100 := by
    rw [show (10000 : ℝ) = 100 ^ 2 by norm_num]
    exact Real.sqrt_sq (by norm_num)
  have hv : timescaleControl launchInward (panControl launchInward
      (zoomControl (launchInward : Input ℝ).wheel (placedState Real.sqrt))) = placedState Real.sqrt := by
    simp [timescaleControl, panControl, zoomControl, launchInward, quietInput, placedState]
  have ht : backspace (launchInward : Input ℝ).keyBackspace
      (typeChars (launchInward : Input ℝ).chars (placedState Real.sqrt))
      = { placedState Real.sqrt with
          speedInput := ['1', '0', '0', '0', '0', '0', '0'] ++ List.replicate 25 NUL
          speedInputLen := 7 } := by
    rfl
  have hp : parseDecimal (cString (['1', '0', '0', '0', '0', '0', '0'] ++ List.replicate 25 NUL))
      = some (false, 1000000, 0) := by decide
  have hsp : (launchSpeed (['1', '0', '0', '0', '0', '0', '0'] ++ List.replicate 25 NUL) : ℝ)
      = 1000000 := by
    unfold launchSpeed atof
    rw [hp]
    norm_num
  have hE : (launchInward : Input ℝ).keyEnter = true := rfl
  have hX : (launchInward : Input ℝ).keyEscape = false := rfl
  have hm : (launchInward : Input ℝ).mouse = { x := 504, y := 400 } := rfl
  have hscr : ToScreen (placedState Real.sqrt).spawnPos screenWidth screenHeight
      (placedState Real.sqrt).metersPerPixel (placedState Real.sqrt).cameraCenter
        = { x := 604, y := 400 } := by
    norm_num [ToScreen, placedState, initial, screenWidth, screenHeight]
  unfold launchedState
  rw [handleInput_aiming Real.sqrt launchInward (placedState Real.sqrt) rfl, hv]
  unfold aiming
  simp only [ht, hE, hX, if_true, Bool.false_eq_true, if_false]
  unfold confirm
  simp only [hsp, hm]
  erw [hscr]
  norm_num [hs, placedState, initial]

theorem launched_probe :
    (launchedState Real.sqrt).probe
      = { probe0 Real.sqrt with pos := { x := 8e6, y := 0 }, vel := { x := -1e6, y := 0 } } ∧
      (launchedState Real.sqrt).probeAlive = true ∧
      (launchedState Real.sqrt).earth = earth0 ∧
      (launchedState Real.sqrt).moon = moon0 := by
  rw [launched_eq]
  exact ⟨rfl, rfl, rfl, rfl⟩

/-- The physics step of the launch frame is one substep of 10 s. -/
theorem launch_frame :
    frame Real.sqrt launchInward (placedState Real.sqrt)
      = substep Real.sqrt 10 (launchedState Real.sqrt) := by
  have hpz : (launchedState Real.sqrt).simulationPaused = false := by
    rw [launched_eq]
    rfl
  have hts : (launchedState Real.sqrt).timeScale = 1 := by
    rw [launched_eq]
    norm_num [initial]
  show physicsStep Real.sqrt (launchInward : Input ℝ).realDt (launchedState Real.sqrt) = _
  unfold physicsStep
  simp only [hpz, hts]
  norm_num [stepCount, maxStep, launchInward, quietInput, substeps]

theorem launch_dPE :
    distPE Real.sqrt (earth0 : Body ℝ) (launchedState Real.sqrt).probe = 8000000 := by
  have hs : Real.sqrt (64000000000000 : ℝ) = 8000000 := by
    rw [show (64000000000000 : ℝ) = 8000000 ^ 2 by norm_num]
    exact Real.sqrt_sq (by norm_num)
  rw [launched_probe.1]
  norm_num [distPE, earth0, hs]

theorem launch_dPM (m : Body ℝ) (hy : m.pos.y = 10220) (hx1 : 3.8e8 ≤ m.pos.x) :
    1e8 ≤ distPM Real.sqrt m (launchedState Real.sqrt).probe := by
  rw [launched_probe.1]
  unfold distPM
  simp only [hy]
  apply Real.le_sqrt_of_sq_le
  norm_num at hx1 ⊢
  nlinarith

/-- The launched probe after a substep of 10 s is below the Earth's surface. -/
theorem launch_after (m : Body ℝ) (hy : m.pos.y = 10220) (hx1 : 3.8e8 ≤ m.pos.x)
    (hx2 : m.pos.x ≤ 3.9e8) (hm : m.mass = 7.34767309e22) :
    distPE Real.sqrt (earth0 : Body ℝ)
      (probeStep Real.sqrt 10 earth0 m (launchedState Real.sqrt).probe) ≤ 6371000 := by
  have hd := launch_dPM m hy hx1
  have he := launch_dPE
  unfold probeStep
  simp only [he]
  generalize distPM Real.sqrt m (launchedState Real.sqrt).probe = d at hd ⊢
  have hd3 : (1e24 : ℝ) ≤ d * d * d + 1e-12 := by
    norm_num at hd ⊢
    have h1 : (100000000 : ℝ) * 100000000 ≤ d * d := by nlinarith
    have h2 : (100000000 : ℝ) * 100000000 * 100000000 ≤ d * d * d := by nlinarith
    linarith
  have hpos : (0 : ℝ) < d * d * d + 1e-12 := lt_of_lt_of_le (by norm_num) hd3
  have hu1 : 0 < 1.0 / (d * d * d + 1e-12) := by positivity
  have hu2 : 1.0 / (d * d * d + 1e-12) ≤ 1e-24 := by
    rw [div_le_iff₀ hpos]
    norm_num at hd3 ⊢
    linarith
  generalize 1.0 / (d * d * d + 1e-12) = u at hu1 hu2 ⊢
  rw [launched_probe.1]
  unfold distPE
  simp only [earth0, probe0, hy, hm, G]
  rw [Real.sqrt_le_iff]
  constructor
  · norm_num
  · norm_num at hx1 hx2 hu1 hu2 ⊢
    have hmx : 0 ≤ m.pos.x - 8000000 := by linarith
    have ha0 : 0 ≤ 49040574504587 / 10 * (m.pos.x - 8000000) * u :=
      mul_nonneg (mul_nonneg (by norm_num) hmx) hu1.le
    have ha1 : 49040574504587 / 10 * (m.pos.x - 8000000) * u ≤ 1 := by
      have h1 : (m.pos.x - 8000000) * u ≤ 390000000 * (1 / 1000000000000000000000000) :=
        mul_le_mul (by linarith) hu2 hu1.le (by norm_num)
      linarith
    have hb0 : 0 ≤ 50119467143687914 * u := mul_nonneg (by norm_num) hu1.le
    have hb1 : 50119467143687914 * u ≤ 1 := by linarith
    generalize 49040574504587 / 10 * (m.pos.x - 8000000) * u = a at ha0 ha1 ⊢
    generalize 50119467143687914 * u = b at hb0 hb1 ⊢
    nlinarith

/-- The physics step of an unpaused state: `stepCount` substeps of the frame's
simulated time divided by their number. -/
theorem physicsStep_unpaused (sqrt : α → α) (realDt : α) (s : Sim α)
    (hp : s.simulationPaused = false) :
    physicsStep sqrt realDt s
      = substeps sqrt (realDt * s.timeScale / (stepCount (realDt * s.timeScale) : α))
          (stepCount (realDt * s.timeScale)).toNat s := by
  unfold physicsStep
  simp [hp]

/-- The physics step writes neither the pause flag nor the timescale. -/
theorem physicsStep_clock (sqrt : α → α) (realDt : α) (s : Sim α) :
    (physicsStep sqrt realDt s).simulationPaused = s.simulationPaused ∧
      (physicsStep sqrt realDt s).timeScale = s.timeScale := by
  obtain ⟨m, p, a, t, tr, h⟩ := physicsStep_frame sqrt realDt s
  rw [h]
  exact ⟨rfl, rfl⟩

/-- A frame of exactly `maxStep` simulated seconds is one substep. -/
theorem stepCount_maxStep : stepCount (maxStep α) = 1 := by
  unfold stepCount
  rw [if_neg (lt_irrefl _)]

/-- A frame of twice `maxStep` simulated seconds is two substeps. -/
theorem stepCount_two_maxStep : stepCount (2 * maxStep α) = 2 := by
  unfold stepCount maxStep
  have h : (2 * 10.0 : α) > 10.0 := by norm_num
  rw [if_pos h]
  have hc : ⌈(2 * 10.0 : α) / 10.0⌉ = 2 := by
    have : (2 * 10.0 : α) / 10.0 = ((2 : Int) : α) := by norm_num
    rw [this, Int.ceil_intCast]
  rw [hc]
  rfl

/-- The cast `(int)` keeps a value that fits in an `int`. -/
theorem toInt_of_fits (z : Int) (h1 : -2147483648 ≤ z) (h2 : z ≤ 2147483647) : toInt z = z := by
  unfold toInt
  rw [if_pos ⟨h1, h2⟩]

/-- The number of substeps when the ceiling of `dt / maxStep` fits in an
`int`: 1 up to `maxStep`, the ceiling above; it is at least 1. -/
theorem stepCount_spec (dt : α) (hfit : ⌈dt / maxStep α⌉ ≤ 2147483647) :
    (dt ≤ maxStep α → stepCount dt = 1) ∧
      (maxStep α < dt → stepCount dt = ⌈dt / maxStep α⌉) ∧
      1 ≤ stepCount dt := by
  have h10 : (0 : α) < maxStep α := by unfold maxStep; norm_num
  have hbig : maxStep α < dt → stepCount dt = ⌈dt / maxStep α⌉ ∧ 1 ≤ ⌈dt / maxStep α⌉ := by
    intro h
    have h1 : (1 : α) < dt / maxStep α := by
      rw [lt_div_iff₀ h10]
      simpa using h
    have h2 : (1 : Int) ≤ ⌈dt / maxStep α⌉ := by
      have : (0 : Int) < ⌈dt / maxStep α⌉ := Int.ceil_pos.mpr (lt_trans one_pos h1)
      omega
    unfold stepCount
    rw [if_pos h, toInt_of_fits _ (by omega) hfit]
    exact ⟨rfl, h2⟩
  refine ⟨?_, fun h => (hbig h).1, ?_⟩
  · intro h
    unfold stepCount
    rw [if_neg (not_lt.mpr h)]
  · by_cases h : maxStep α < dt
    · rw [(hbig h).1]
      exact (hbig h).2
    · unfold stepCount
      rw [if_neg h]

/-- The substep size when the ceiling of `dt / maxStep` fits in an `int`. -/
theorem stepSize_spec (dt : α) (h0 : 0 ≤ dt) (hfit : ⌈dt / maxStep α⌉ ≤ 2147483647) :
    (stepCount dt : α) * (dt / (stepCount dt : α)) = dt ∧
      0 ≤ dt / (stepCount dt : α) ∧ dt / (stepCount dt : α) ≤ maxStep α := by
  obtain ⟨hsmall, hbig, hone⟩ := stepCount_spec dt hfit
  have h10 : (0 : α) < maxStep α := by unfold maxStep; norm_num
  have hpos : (0 : α) < (stepCount dt : α) := by
    have : (1 : α) ≤ (stepCount dt : α) := by exact_mod_cast hone
    exact lt_of_lt_of_le one_pos this
  refine ⟨mul_div_cancel₀ _ (ne_of_gt hpos), div_nonneg h0 hpos.le, ?_⟩
  rw [div_le_iff₀ hpos]
  by_cases h : maxStep α < dt
  · rw [hbig h]
    have := Int.le_ceil (dt / maxStep α)
    rw [div_le_iff₀ h10] at this
    linarith
  · rw [hsmall (not_lt.mp h)]
    simpa using not_lt.mp h

/-- The spawn state machine writes neither the camera nor the timescale. -/
theorem spawnControl_view (sqrt : α → α) (inp : Input α) (s : Sim α) :
    (spawnControl sqrt inp s).metersPerPixel = s.metersPerPixel ∧
      (spawnControl sqrt inp s).cameraCenter = s.cameraCenter ∧
      (spawnControl sqrt inp s).timeScale = s.timeScale := by
  unfold spawnControl
  dsimp only
  split
  · unfold idle
    split_ifs <;> exact ⟨rfl, rfl, rfl⟩
  · unfold placing cancel
    dsimp only
    split_ifs <;> exact ⟨rfl, rfl, rfl⟩
  · obtain ⟨b, n, he⟩ := edit_frame inp s
    unfold aiming cancel
    simp only [he]
    split_ifs <;> exact ⟨rfl, rfl, rfl⟩

/-- Zoom control leaves `metersPerPixel` in `[1, 1e9]` when it was there. -/
theorem zoomControl_range (wheel : α) (s : Sim α)
    (h : 1.0 ≤ s.metersPerPixel ∧ s.metersPerPixel ≤ 1.0e9) :
    1.0 ≤ (zoomControl wheel s).metersPerPixel ∧
      (zoomControl wheel s).metersPerPixel ≤ 1.0e9 := by
  unfold zoomControl
  by_cases hw : wheel ≠ 0
  · rw [if_pos hw]
    dsimp only
    split_ifs <;> constructor <;> linarith
  · rw [if_neg hw]
    exact h

/-- Timescale control leaves `timeScale` in `[0.125, 100000]` when it was
there. -/
theorem timescaleControl_range (inp : Input α) (s : Sim α)
    (h : 0.125 ≤ s.timeScale ∧ s.timeScale ≤ 100000.0) :
    0.125 ≤ (timescaleControl inp s).timeScale ∧
      (timescaleControl inp s).timeScale ≤ 100000.0 := by
  obtain ⟨h1, h2⟩ := h
  unfold timescaleControl
  by_cases hi : s.spawnState = SpawnState.SPAWN_IDLE
  · rw [if_pos hi]
    dsimp only
    norm_num at h1 h2 ⊢
    split_ifs <;> constructor <;> linarith
  · rw [if_neg hi]
    exact ⟨h1, h2⟩

/-- Input handling keeps the zoom and the timescale within their bounds. -/
theorem handleInput_viewInRange (sqrt : α → α) (inp : Input α) (s : Sim α)
    (h : viewInRange s) : viewInRange (handleInput sqrt inp s) := by
  obtain ⟨hm, ht⟩ := h
  have hz := zoomControl_range inp.wheel s hm
  have hzt : (zoomControl inp.wheel s).timeScale = s.timeScale := by
    unfold zoomControl
    split_ifs <;> rfl
  have hp : (panControl inp (zoomControl inp.wheel s)).metersPerPixel
      = (zoomControl inp.wheel s).metersPerPixel := rfl
  have hpt : (panControl inp (zoomControl inp.wheel s)).timeScale
      = (zoomControl inp.wheel s).timeScale := rfl
  have htm : (timescaleControl inp (panControl inp (zoomControl inp.wheel s))).metersPerPixel
      = (panControl inp (zoomControl inp.wheel s)).metersPerPixel := by
    unfold timescaleControl
    split_ifs <;> rfl
  have htt := timescaleControl_range inp (panControl inp (zoomControl inp.wheel s))
    (by rw [hpt, hzt]; exact ht)
  obtain ⟨e1, _, e3⟩ := spawnControl_view sqrt inp
    (timescaleControl inp (panControl inp (zoomControl inp.wheel s)))
  unfold viewInRange handleInput
  rw [e1, e3, htm, hp]
  exact ⟨hz, htt⟩

/-- In every reachable state the zoom and the timescale are within their
bounds. -/
theorem reachable_viewInRange (sqrt : α → α) (s : Sim α) (hs : Reachable sqrt s) :
    viewInRange s := by
  induction hs with
  | init =>
    unfold viewInRange initial
    norm_num
  | step inp s _ _ ih =>
    obtain ⟨m, p, a, t, tr, hp⟩ := physicsStep_frame sqrt inp.realDt (handleInput sqrt inp s)
    unfold frame
    rw [hp]
    exact handleInput_viewInRange sqrt inp s ih

/-- The substeps of a dead probe move the Moon and nothing else. -/
theorem substeps_dead_eq (sqrt : α → α) (h : α) (n : Nat) (s : Sim α)
    (hd : s.probeAlive = false) :
    substeps sqrt h n s = { s with moon := (substeps sqrt h n s).moon } := by
  induction n generalizing s with
  | zero => rfl
  | succ n ih =>
    simp only [substeps]
    rw [substep_dead sqrt h s hd]
    have := ih { s with moon := moonStep sqrt h s.earth s.moon } hd
    rw [this]

/-- The Moon's update of the code is the specification's step 1. -/
theorem moonStep_eq_spec (sqrt : α → α) (h : α) (earth moon : Body α) :
    moonStep sqrt h earth moon = specMoonStep sqrt h earth moon := by
  unfold moonStep specMoonStep specAccel
  simp only [Body.mk.injEq, Vec2d.mk.injEq, true_and, and_true]
  norm_num
  refine ⟨⟨?_, ?_⟩, ?_, ?_⟩ <;> ring

/-- The probe's update of the code is the specification's step 2. -/
theorem probeStep_eq_spec (sqrt : α → α) (h : α) (earth moon probe : Body α) :
    probeStep sqrt h earth moon probe = specProbeStep sqrt h earth moon probe := by
  unfold probeStep specProbeStep specAccel distPE distPM
  simp only [Body.mk.injEq, Vec2d.mk.injEq, true_and, and_true]
  norm_num
  refine ⟨⟨?_, ?_⟩, ?_, ?_⟩ <;> ring

/-- A frame of 25 s at timescale 1 takes three substeps. -/
theorem ceil_25 : ⌈(25 : ℚ) * (initial sqrtQ).timeScale / maxStep ℚ⌉ = 3 := by
  rw [Int.ceil_eq_iff]
  norm_num [initial, maxStep]

/-- A substep that records a trail sample: the probe is alive before and
after the collision test and the timer reaches the interval. -/
theorem substep_sample (sqrt : α → α) (h : α) (s : Sim α) (ha : s.probeAlive = true)
    (hal : (substep sqrt h s).probeAlive = true)
    (ht : s.trailTimer + h ≥ TRAIL_INTERVAL α) :
    (substep sqrt h s).probeTrail = pushTrail s.probeTrail (substep sqrt h s).probe.pos ∧
      (substep sqrt h s).trailTimer = 0 := by
  obtain ⟨_, _, _, hal2⟩ := substep_alive sqrt h s ha
  rw [hal] at hal2
  unfold substep
  dsimp only
  rw [if_pos ha, ← hal2, if_pos rfl, if_pos ht]
  refine ⟨rfl, ?_⟩
  show (0.0 : α) = 0
  norm_num

/-- The probe of the initial state survives the collision test of a first
substep of 10 s. -/
theorem initial_alive_after :
    (substep Real.sqrt 10 (initial Real.sqrt)).probeAlive = true := by
  obtain ⟨_, _, _, hal⟩ := substep_alive Real.sqrt 10 (initial Real.sqrt) rfl
  obtain ⟨hy, ⟨hx1, _⟩, _, hrad⟩ := moon_after_substep
  have hE : (initial Real.sqrt).earth = earth0 := rfl
  have hM : (initial Real.sqrt).moon = moon0 := rfl
  rw [hE, hM] at hal
  rw [hal]
  have hs : Real.sqrt (45846441000000 : ℝ) = 6771000 := by
    rw [show (45846441000000 : ℝ) = 6771000 ^ 2 by norm_num]
    exact Real.sqrt_sq (by norm_num)
  have h1 : distPE Real.sqrt (earth0 : Body ℝ) (initial Real.sqrt).probe = 6771000 := by
    norm_num [distPE, earth0, initial, probe0, hs]
  have h2 : (1e8 : ℝ) ≤ distPM Real.sqrt (moonStep Real.sqrt 10 earth0 moon0)
      (initial Real.sqrt).probe := by
    unfold distPM
    simp only [hy, initial, probe0]
    apply Real.le_sqrt_of_sq_le
    norm_num at hx1 ⊢
    nlinarith
  unfold aliveAfterCollision
  rw [h1, hrad]
  have hr : (earth0 : Body ℝ).radius = 6371000 := by norm_num [earth0]
  rw [hr]
  have h3 : ¬ ((6771000 : ℝ) ≤ 6371000) := by norm_num
  have h4 : ¬ (distPM Real.sqrt (moonStep Real.sqrt 10 earth0 moon0)
      (initial Real.sqrt).probe ≤ 1.7371e6) := by
    intro h5
    have h6 := le_trans h2 h5
    norm_num at h6
  simp [h3, h4]

/-- `ToWorld` undoes `ToScreen` when the scale is not zero. -/
theorem toWorld_toScreen_of_ne (p center : Vec2d α) (w h : Int) (mpp : α) (hne : mpp ≠ 0) :
    ToWorld (ToScreen p w h mpp center) w h mpp center = p := by
  cases p with
  | mk px py =>
    simp only [ToWorld, ToScreen, Vec2d.mk.injEq]
    constructor <;> field_simp <;> ring

/-- The click on the spawn button takes the initial state to placing. -/
theorem frame_clickButton (sqrt : α → α) :
    frame sqrt clickButton (initial sqrt) = placingState sqrt := by
  unfold frame handleInput clickButton placingState
  rw [view_quiet]
  have hb : CheckCollisionPointRec ({ x := 1100, y := 30 } : Vector2 α) spawnButton = true := by
    simp only [CheckCollisionPointRec, spawnButton, screenWidth]
    norm_num
  simp [spawnControl, idle, physicsStep, hb, initial, quietInput]

/-- The placing state is reached from the initial state in one frame. -/
theorem placingState_reachable (sqrt : α → α) : Reachable sqrt (placingState sqrt) := by
  rw [← frame_clickButton]
  exact Reachable.step _ _ Reachable.init (by norm_num [clickButton, quietInput])

/-- The click at pixel `(605, 400)` takes the placing state to aiming at
`(1e7, 0)`. -/
theorem frame_clickPlace (sqrt : α → α) :
    frame sqrt clickPlace (placingState sqrt) = aimingState sqrt := by
  unfold frame handleInput clickPlace placingState
  rw [view_quiet]
  have hb : CheckCollisionPointRec ({ x := 605, y := 400 } : Vector2 α) spawnButton = false := by
    simp only [CheckCollisionPointRec, spawnButton, screenWidth]
    norm_num
  simp [spawnControl, placing, physicsStep, hb, initial, quietInput, aimingState, ToWorld,
    screenWidth, screenHeight]
  norm_num

/-- The typing loop on a well-formed buffer writes within the buffer. -/
theorem typeCharsWrites_range (cs : List Int) (s : Sim α) (h : SpeedOK s) :
    ∀ i ∈ typeCharsWrites cs s, 0 ≤ i ∧ i ≤ 31 := by
  induction cs generalizing s with
  | nil => intro i hi; simp [typeCharsWrites] at hi
  | cons key rest ih =>
    intro i hi
    simp only [typeCharsWrites] at hi
    split_ifs at hi with hk
    · rw [List.mem_append] at hi
      rcases hi with hi | hi
      · obtain ⟨_, h0, h31, _, _⟩ := h
        unfold typeCharWrites at hi
        split_ifs at hi with h1 h2
        · simp only [List.mem_cons, List.mem_singleton, List.not_mem_nil, or_false] at hi
          rcases hi with hi | hi <;> omega
        · simp at hi
        · simp at hi
      · exact ih _ (typeChar_ok key s h) i hi
    · simp at hi

/-- Backspace on a well-formed buffer writes within the buffer. -/
theorem backspaceWrites_range (pressed : Bool) (s : Sim α) (h : SpeedOK s) :
    ∀ i ∈ backspaceWrites pressed s, 0 ≤ i ∧ i ≤ 31 := by
  intro i hi
  obtain ⟨_, h0, h31, _, _⟩ := h
  unfold backspaceWrites at hi
  split_ifs at hi with hp
  · have := hp.2
    simp only [List.mem_singleton] at hi
    omega
  · simp at hi

/-- What zoom control does to `metersPerPixel`: divide or multiply by 1.15 as
the wheel says, then clamp into `[1, 1e9]`. -/
theorem zoomControl_value (wheel : α) (s : Sim α) :
    (zoomControl wheel s).metersPerPixel
      = if 0 < wheel then min (max (s.metersPerPixel / 1.15) 1.0) 1.0e9
        else if wheel < 0 then min (max (s.metersPerPixel * 1.15) 1.0) 1.0e9
        else s.metersPerPixel := by
  unfold zoomControl
  by_cases hp : 0 < wheel
  · have hn : ¬ wheel < 0 := not_lt.mpr hp.le
    rw [if_pos (ne_of_gt hp), if_pos hp]
    dsimp only
    rw [if_pos hp, if_neg hn]
    by_cases h1 : s.metersPerPixel / 1.15 < 1.0
    · rw [if_pos h1, max_eq_right h1.le]
      by_cases h2 : (1.0 : α) > 1.0e9
      · rw [if_pos h2, min_eq_right h2.le]
      · rw [if_neg h2, min_eq_left (not_lt.mp h2)]
    · rw [if_neg h1, max_eq_left (not_lt.mp h1)]
      by_cases h2 : s.metersPerPixel / 1.15 > 1.0e9
      · rw [if_pos h2, min_eq_right h2.le]
      · rw [if_neg h2, min_eq_left (not_lt.mp h2)]
  · rw [if_neg hp]
    by_cases hn : wheel < 0
    · rw [if_pos (ne_of_lt hn), if_pos hn]
      dsimp only
      rw [if_neg hp, if_pos hn]
      by_cases h1 : s.metersPerPixel * 1.15 < 1.0
      · rw [if_pos h1, max_eq_right h1.le]
        by_cases h2 : (1.0 : α) > 1.0e9
        · rw [if_pos h2, min_eq_right h2.le]
        · rw [if_neg h2, min_eq_left (not_lt.mp h2)]
      · rw [if_neg h1, max_eq_left (not_lt.mp h1)]
        by_cases h2 : s.metersPerPixel * 1.15 > 1.0e9
        · rw [if_pos h2, min_eq_right h2.le]
        · rw [if_neg h2, min_eq_left (not_lt.mp h2)]
    · have h0 : wheel = 0 := le_antisymm (not_lt.mp hp) (not_lt.mp hn)
      rw [if_neg hn, if_neg (by simpa using h0)]

/-- What timescale control does to `timeScale` while idle: Up doubles and
clamps at 100000, then Down halves and clamps at 0.125. -/
theorem timescaleControl_value (inp : Input α) (s : Sim α)
    (hi : s.spawnState = SpawnState.SPAWN_IDLE) :
    (timescaleControl inp s).timeScale
      = if inp.keyDown = true then
          max ((if inp.keyUp = true then min (s.timeScale * 2.0) 100000.0 else s.timeScale) / 2.0)
            0.125
        else if inp.keyUp = true then min (s.timeScale * 2.0) 100000.0 else s.timeScale := by
  have hup : (if inp.keyUp = true then
        (if s.timeScale * 2.0 > 100000.0 then (100000.0 : α) else s.timeScale * 2.0)
      else s.timeScale)
      = if inp.keyUp = true then min (s.timeScale * 2.0) 100000.0 else s.timeScale := by
    by_cases hu : inp.keyUp = true
    · rw [if_pos hu, if_pos hu]
      by_cases h : s.timeScale * 2.0 > 100000.0
      · rw [if_pos h, min_eq_right h.le]
      · rw [if_neg h, min_eq_left (not_lt.mp h)]
    · rw [if_neg hu, if_neg hu]
  unfold timescaleControl
  rw [if_pos hi]
  dsimp only
  rw [hup]
  generalize (if inp.keyUp = true then min (s.timeScale * 2.0) 100000.0 else s.timeScale) = t1
  by_cases hd : inp.keyDown = true
  · rw [if_pos hd, if_pos hd]
    by_cases h : t1 / 2.0 < 0.125
    · rw [if_pos h, max_eq_right h.le]
    · rw [if_neg h, max_eq_left (not_lt.mp h)]
  · rw [if_neg hd, if_neg hd]

/-- Of a frame only zoom control writes `metersPerPixel`. -/
theorem frame_metersPerPixel (sqrt : α → α) (inp : Input α) (s : Sim α) :
    (frame sqrt inp s).metersPerPixel = (zoomControl inp.wheel s).metersPerPixel := by
  obtain ⟨m, p, a, t, tr, hp⟩ := physicsStep_frame sqrt inp.realDt (handleInput sqrt inp s)
  have htm : (timescaleControl inp (panControl inp (zoomControl inp.wheel s))).metersPerPixel
      = (panControl inp (zoomControl inp.wheel s)).metersPerPixel := by
    unfold timescaleControl
    split_ifs <;> rfl
  unfold frame
  rw [hp]
  show (handleInput sqrt inp s).metersPerPixel = _
  unfold handleInput
  rw [(spawnControl_view sqrt inp _).1, htm]
  rfl

/-- Of a frame only timescale control writes `timeScale`. -/
theorem frame_timeScale (sqrt : α → α) (inp : Input α) (s : Sim α) :
    (frame sqrt inp s).timeScale = (timescaleControl inp s).timeScale := by
  have hzs : (zoomControl inp.wheel s).spawnState = s.spawnState := by
    unfold zoomControl
    split_ifs <;> rfl
  have hzt : (zoomControl inp.wheel s).timeScale = s.timeScale := by
    unfold zoomControl
    split_ifs <;> rfl
  have hps : (panControl inp (zoomControl inp.wheel s)).spawnState = s.spawnState := hzs
  have hpt : (panControl inp (zoomControl inp.wheel s)).timeScale = s.timeScale := hzt
  unfold frame
  rw [(physicsStep_clock sqrt inp.realDt _).2]
  unfold handleInput
  rw [(spawnControl_view sqrt inp _).2.2]
  unfold timescaleControl
  rw [hps]
  by_cases hi : s.spawnState = SpawnState.SPAWN_IDLE
  · rw [if_pos hi, if_pos hi]
    dsimp only
    rw [hpt]
  · rw [if_neg hi, if_neg hi]
    exact hpt

/-- A frame without a click leaves an idle state machine idle. -/
theorem frame_idle (sqrt : α → α) (inp : Input α) (s : Sim α)
    (hi : s.spawnState = SpawnState.SPAWN_IDLE) (hc : inp.mousePressed = false) :
    (frame sqrt inp s).spawnState = SpawnState.SPAWN_IDLE := by
  obtain ⟨m, p, a, t, tr, hp⟩ := physicsStep_frame sqrt inp.realDt (handleInput sqrt inp s)
  have hv := view_spawnState inp s
  rw [hi] at hv
  unfold frame
  rw [hp]
  show (handleInput sqrt inp s).spawnState = _
  unfold handleInput spawnControl
  simp only [hv]
  unfold idle
  rw [hc]
  simp only [Bool.and_false, Bool.false_eq_true, if_false]
  exact hv

/-- A run of frames with non-negative frame times stays among the reachable
states. -/
theorem run_reachable (sqrt : α → α) (inps : List (Input α)) (s : Sim α)
    (hs : Reachable sqrt s) (h : ∀ inp ∈ inps, 0 ≤ inp.realDt) :
    Reachable sqrt (run sqrt inps s) := by
  induction inps generalizing s with
  | nil => exact hs
  | cons inp rest ih =>
    simp only [run]
    exact ih _ (Reachable.step inp s hs (h inp (List.mem_cons_self _ _)))
      (fun i hi => h i (List.mem_cons_of_mem _ hi))

/-- Pressing Up in `n` frames in a row doubles the timescale `n` times, as
long as that stays within 100000. -/
theorem run_pressUp (sqrt : α → α) (n : Nat) (s : Sim α)
    (hi : s.spawnState = SpawnState.SPAWN_IDLE) (h0 : 0 ≤ s.timeScale)
    (hb : 2 ^ n * s.timeScale ≤ 100000) :
    (run sqrt (List.replicate n pressUp) s).timeScale = 2 ^ n * s.timeScale ∧
      (run sqrt (List.replicate n pressUp) s).spawnState = SpawnState.SPAWN_IDLE := by
  induction n generalizing s with
  | zero => simp [run, hi]
  | succ n ih =>
    simp only [List.replicate_succ, run]
    have h2n : (1 : α) ≤ 2 ^ n := one_le_pow₀ (by norm_num)
    have hts : (frame sqrt pressUp s).timeScale = 2 * s.timeScale := by
      rw [frame_timeScale, timescaleControl_value pressUp s hi]
      have hd : (pressUp : Input α).keyDown = false := rfl
      have hu : (pressUp : Input α).keyUp = true := rfl
      rw [hd, hu]
      simp only [Bool.false_eq_true, if_false, if_true]
      have : s.timeScale * 2.0 ≤ 100000.0 := by
        norm_num
        have h3 : 2 ^ (n + 1) * s.timeScale = 2 ^ n * (s.timeScale * 2) := by ring
        rw [h3] at hb
        calc s.timeScale * 2 = 1 * (s.timeScale * 2) := by ring
          _ ≤ 2 ^ n * (s.timeScale * 2) :=
            mul_le_mul_of_nonneg_right h2n (by linarith)
          _ ≤ 100000 := hb
      rw [min_eq_left this]
      norm_num
      ring
    have hid := frame_idle sqrt pressUp s hi rfl
    have := ih (frame sqrt pressUp s) hid (by rw [hts]; linarith)
      (by rw [hts]; calc 2 ^ n * (2 * s.timeScale) = 2 ^ (n + 1) * s.timeScale := by ring
            _ ≤ 100000 := hb)
    rw [this.1, hts]
    exact ⟨by ring, this.2⟩

/-- Turning the wheel up in `n` frames in a row divides `metersPerPixel` by
`1.15^n`, or takes it lower, down to the bound 1. -/
theorem run_wheelUp (sqrt : α → α) (n : Nat) (s : Sim α) (c : α)
    (h : s.metersPerPixel ≤ max 1 c) :
    (run sqrt (List.replicate n wheelUp) s).metersPerPixel ≤ max 1 (c / 1.15 ^ n) := by
  induction n generalizing s c with
  | zero => simpa [run] using h
  | succ n ih =>
    simp only [List.replicate_succ, run]
    have hstep : (frame sqrt wheelUp s).metersPerPixel ≤ max 1 (c / 1.15) := by
      rw [frame_metersPerPixel, zoomControl_value]
      have hw : (0 : α) < (wheelUp : Input α).wheel := by
        show (0 : α) < 1
        exact one_pos
      rw [if_pos hw]
      refine le_trans (min_le_left _ _) ?_
      apply max_le
      · rcases le_max_iff.mp h with h1 | h1
        · have : s.metersPerPixel / 1.15 ≤ 1 := by
            rw [div_le_iff₀ (by norm_num)]
            linarith
          exact le_trans this (le_max_left _ _)
        · have : s.metersPerPixel / 1.15 ≤ c / 1.15 :=
            div_le_div_of_nonneg_right h1 (by norm_num)
          exact le_trans this (le_max_right _ _)
      · norm_num
    have := ih (frame sqrt wheelUp s) (c / 1.15) hstep
    have e : c / 1.15 / 1.15 ^ n = c / 1.15 ^ (n + 1) := by
      rw [pow_succ, div_div, mul_comm]
    rw [e] at this
    exact this

end Lemmas

section Claims

variable {α : Type} [LinearOrderedField α] [FloorRing α]

/-- Claim C1: for every world point, camera centre, screen size and
`metersPerPixel` in `[1, 1e9]`, `ToWorld` undoes `ToScreen` exactly; neither
coordinate is clamped. -/
theorem ToWorld_ToScreen {α : Type} [LinearOrderedField α] (p center : Vec2d α) (w h : Int)
    (mpp : α) (hlo : 1.0 ≤ mpp) (_hhi : mpp ≤ 1.0e9) :
    ToWorld (ToScreen p w h mpp center) w h mpp center = p := by
  have hne : mpp ≠ 0 := by
    have : (0 : α) < mpp := lt_of_lt_of_le (by norm_num) hlo
    exact ne_of_gt this
  cases p with
  | mk px py =>
    simp only [ToWorld, ToScreen, Vec2d.mk.injEq]
    constructor <;> field_simp <;> ring

/-- The round trip at the start-up camera: world point `(1e7, 0)`, a
1200 x 800 window, 2000 km per pixel, camera centred on the origin. -/
theorem ToWorld_ToScreen_witness :
    ((1.0 : ℚ) ≤ 2.0e6 ∧ (2.0e6 : ℚ) ≤ 1.0e9) ∧
      ToWorld (ToScreen (⟨1e7, 0⟩ : Vec2d ℚ) 1200 800 2.0e6 ⟨0, 0⟩) 1200 800 2.0e6 ⟨0, 0⟩
        = ⟨1e7, 0⟩ :=
  ⟨by norm_num, ToWorld_ToScreen _ _ _ _ _ (by norm_num) (by norm_num)⟩

/-- Claim C2: in every state reachable from the initial state by any sequence
of frames, whatever the inputs and the non-negative frame times, `probeTrail`
holds at most `MAX_TRAIL_POINTS = 10000` positions. -/
theorem trail_bounded (sqrt : α → α) (s : Sim α) (hs : Reachable sqrt s) :
    s.probeTrail.length ≤ MAX_TRAIL_POINTS ∧ MAX_TRAIL_POINTS = 10000 := by
  refine ⟨?_, rfl⟩
  induction hs with
  | init => simp [initial]
  | step inp s _ _ ih =>
    unfold frame
    apply physicsStep_trail_le
    rcases handleInput_trail sqrt inp s with h | h
    · rw [h]; exact ih
    · rw [h]; simp

/-- The bound on the trail after one quiet frame of a sixtieth of a second
from the initial state. -/
theorem trail_bounded_witness :
    Reachable sqrtQ (frame sqrtQ (quietInput (1 / 60) ⟨0, 0⟩) (initial sqrtQ)) ∧
      (frame sqrtQ (quietInput (1 / 60) ⟨0, 0⟩) (initial sqrtQ)).probeTrail.length
          ≤ MAX_TRAIL_POINTS ∧
      MAX_TRAIL_POINTS = 10000 :=
  ⟨Reachable.step _ _ Reachable.init (by norm_num [quietInput]),
    trail_bounded sqrtQ _ (Reachable.step _ _ Reachable.init (by norm_num [quietInput]))⟩

/-- Claim C3: when `probeAlive` is false and the frame does not confirm a
spawn (Enter while in `SPAWN_AIMING`), `probeAlive` is false after the frame,
whatever the other inputs and the frame time; so the probe stays dead over any
run of frames none of which confirms a spawn. -/
theorem dead_stays_dead (sqrt : α → α) (s : Sim α) (hd : s.probeAlive = false) :
    (∀ inp : Input α, ¬ confirms inp s → (frame sqrt inp s).probeAlive = false) ∧
      (∀ inps : List (Input α), noConfirm sqrt inps s →
        (run sqrt inps s).probeAlive = false) := by
  refine ⟨fun inp hno => frame_dead sqrt inp s hd hno, ?_⟩
  intro inps
  induction inps generalizing s with
  | nil => intro _; exact hd
  | cons inp rest ih =>
    intro hno
    simp only [run]
    exact ih (frame sqrt inp s) (frame_dead sqrt inp s hd hno.1) hno.2

/-- A crashed probe in the initial configuration stays dead through frames
that press Enter (outside `SPAWN_AIMING`) and Escape. -/
theorem dead_stays_dead_witness :
    ({ initial sqrtQ with probeAlive := false } : Sim ℚ).probeAlive = false ∧
      (frame sqrtQ { quietInput (1 / 60) ⟨0, 0⟩ with keyEnter := true, keyEscape := true }
        { initial sqrtQ with probeAlive := false }).probeAlive = false :=
  ⟨rfl, (dead_stays_dead sqrtQ { initial sqrtQ with probeAlive := false } rfl).1 _
    (by simp [confirms, initial])⟩

/-- Claim C5: in every reachable state and for every input, where the frame
reaches its physics step `simulationPaused` is true exactly when `spawnState`
is not `SPAWN_IDLE`; and when input handling ends in `SPAWN_PLACING` or
`SPAWN_AIMING` the physics step changes nothing at all, so no body, nor
`probeAlive`, `probeTrail` or `trailTimer`. -/
theorem paused_while_spawning (sqrt : α → α) (s : Sim α) (hs : Reachable sqrt s)
    (inp : Input α) :
    ((handleInput sqrt inp s).simulationPaused = true ↔
        (handleInput sqrt inp s).spawnState ≠ SpawnState.SPAWN_IDLE) ∧
      ((handleInput sqrt inp s).spawnState = SpawnState.SPAWN_PLACING ∨
          (handleInput sqrt inp s).spawnState = SpawnState.SPAWN_AIMING →
        physicsStep sqrt inp.realDt (handleInput sqrt inp s) = handleInput sqrt inp s) := by
  have hinv := handleInput_paused sqrt inp s (reachable_paused sqrt s hs)
  refine ⟨hinv, ?_⟩
  intro hsp
  have hp : (handleInput sqrt inp s).simulationPaused = true := by
    apply hinv.2
    rcases hsp with h | h <;> rw [h] <;> simp
  unfold physicsStep
  simp [hp]

/-- The frame that clicks the spawn button in the initial state: input
handling ends in `SPAWN_PLACING` with the clock paused, and the physics step
of that frame changes nothing. -/
theorem paused_while_spawning_witness :
    Reachable sqrtQ (initial sqrtQ) ∧
      (handleInput sqrtQ { quietInput (1 / 60) ⟨1100, 30⟩ with mousePressed := true }
        (initial sqrtQ)).spawnState = SpawnState.SPAWN_PLACING ∧
      physicsStep sqrtQ (1 / 60)
          (handleInput sqrtQ { quietInput (1 / 60) ⟨1100, 30⟩ with mousePressed := true }
            (initial sqrtQ))
        = handleInput sqrtQ { quietInput (1 / 60) ⟨1100, 30⟩ with mousePressed := true }
            (initial sqrtQ) := by
  have hpl : (handleInput sqrtQ { quietInput (1 / 60) ⟨1100, 30⟩ with mousePressed := true }
      (initial sqrtQ)).spawnState = SpawnState.SPAWN_PLACING := by
    norm_num [handleInput, spawnControl, idle, timescaleControl, panControl, zoomControl,
      quietInput, initial, CheckCollisionPointRec, spawnButton, screenWidth]
  exact ⟨Reachable.init, hpl,
    (paused_while_spawning sqrtQ _ Reachable.init
      { quietInput (1 / 60) ⟨1100, 30⟩ with mousePressed := true }).2 (Or.inl hpl)⟩

/-- Claim C4, as the code has it: in a substep executed with a live probe the
collision test uses the distances computed for the acceleration, that is the
probe's position before that substep's position update (and the Moon's
position after its update): the probe is moved, and `probeAlive` is false at
the end of the substep exactly when the distance from the probe's position
before the update to the Earth is at most `earth.radius`, or to the Moon at
most `moon.radius`. -/
theorem collision_test_before_update (sqrt : α → α) (h : α) (s : Sim α)
    (ha : s.probeAlive = true) :
    (substep sqrt h s).probe = probeStep sqrt h s.earth (substep sqrt h s).moon s.probe ∧
      ((substep sqrt h s).probeAlive = false ↔
        distPE sqrt s.earth s.probe ≤ s.earth.radius ∨
          distPM sqrt (substep sqrt h s).moon s.probe ≤ s.moon.radius) := by
  obtain ⟨_, hm, hp, hal⟩ := substep_alive sqrt h s ha
  rw [hal, hp, hm]
  refine ⟨rfl, ?_⟩
  unfold aliveAfterCollision
  have hr : (moonStep sqrt h s.earth s.moon).radius = s.moon.radius := rfl
  rw [hr]
  split_ifs with h1 h2
  · simp [h1]
  · simp [h2]
  · simp [h1, h2]

/-- The collision test in a substep of 10 s from the initial state. -/
theorem collision_test_before_update_witness :
    (initial sqrtQ).probeAlive = true ∧
      ((substep sqrtQ 10 (initial sqrtQ)).probe
          = probeStep sqrtQ 10 (initial sqrtQ).earth
              (substep sqrtQ 10 (initial sqrtQ)).moon (initial sqrtQ).probe ∧
        ((substep sqrtQ 10 (initial sqrtQ)).probeAlive = false ↔
          distPE sqrtQ (initial sqrtQ).earth (initial sqrtQ).probe
              ≤ (initial sqrtQ).earth.radius ∨
            distPM sqrtQ (substep sqrtQ 10 (initial sqrtQ)).moon (initial sqrtQ).probe
              ≤ (initial sqrtQ).moon.radius)) :=
  ⟨rfl, collision_test_before_update sqrtQ 10 (initial sqrtQ) rfl⟩

/-- Claim C4 fails as stated.  From the initial state two clicks place the
candidate at `(8e6, 0)`; in the next frame, of 10 s, `000` is typed, which
makes the speed text `1000000`, and Enter is pressed with the pointer to the
left of the candidate.  The physics step of that frame is one substep of
10 s, executed with a live probe at `(8e6, 0)` moving at `(-1e6, 0)`.  After
the substep the probe is some 2000 km from the Earth's centre, so its distance
to the Earth is at most `earth.radius`, and it is still alive. -/
theorem collision_after_update_missed :
    Reachable Real.sqrt (placedState Real.sqrt) ∧
      frame Real.sqrt launchInward (placedState Real.sqrt)
        = substep Real.sqrt 10 (launchedState Real.sqrt) ∧
      (launchedState Real.sqrt).probeAlive = true ∧
      distPE Real.sqrt (substep Real.sqrt 10 (launchedState Real.sqrt)).earth
          (substep Real.sqrt 10 (launchedState Real.sqrt)).probe
        ≤ (substep Real.sqrt 10 (launchedState Real.sqrt)).earth.radius ∧
      (substep Real.sqrt 10 (launchedState Real.sqrt)).probeAlive = true := by
  obtain ⟨_, hlive, hE, hM⟩ := launched_probe
  obtain ⟨he, hm, hp, hal⟩ := substep_alive Real.sqrt 10 (launchedState Real.sqrt) hlive
  obtain ⟨hy, ⟨hx1, hx2⟩, hmass, hrad⟩ := moon_after_substep
  rw [hE] at he hm hp hal
  rw [hM] at hm hp hal
  have hr : (earth0 : Body ℝ).radius = 6371000 := by norm_num [earth0]
  refine ⟨placedState_reachable Real.sqrt, launch_frame, hlive, ?_, ?_⟩
  · rw [he, hp, hr]
    exact launch_after _ hy hx1 hx2 hmass
  · rw [hal]
    have h1 := launch_dPE
    have h2 := launch_dPM _ hy hx1
    unfold aliveAfterCollision
    rw [h1, hrad, hr]
    have h3 : ¬ ((8000000 : ℝ) ≤ 6371000) := by norm_num
    have h4 : ¬ (distPM Real.sqrt (moonStep Real.sqrt 10 earth0 moon0)
        (launchedState Real.sqrt).probe ≤ 1.7371e6) := by
      intro h5
      have h6 := le_trans h2 h5
      norm_num at h6
    simp [h3, h4]

/-- Claim C6: on a confirm event while aiming, with `speed` the launch speed
read from the speed text and `(dx, dy)` the pointer's screen position minus
`ToScreen(spawnPos)`: when `len = sqrt(dx² + dy²) > 1` the probe's velocity
becomes `speed * (dx / len, -dy / len)`, a vector of magnitude `speed`;
otherwise it becomes `(0, 0)`; either way the probe's position becomes
`spawnPos`. -/
theorem confirm_launch (sqrt : α → α) (hsqrt : IsSqrt sqrt) (inp : Input α) (s : Sim α)
    (hE : inp.keyEnter = true) :
    let speed : α := launchSpeed (backspace inp.keyBackspace (typeChars inp.chars s)).speedInput
    let spawnScreen := ToScreen s.spawnPos screenWidth screenHeight s.metersPerPixel s.cameraCenter
    let dx := inp.mouse.x - spawnScreen.x
    let dy := inp.mouse.y - spawnScreen.y
    let len := sqrt (dx * dx + dy * dy)
    let vel := (aiming sqrt inp s).probe.vel
    (len > 1 → vel = { x := speed * (dx / len), y := speed * (-dy / len) } ∧
        sqrt (vel.x * vel.x + vel.y * vel.y) = speed) ∧
      (¬ len > 1 → vel = { x := 0, y := 0 }) ∧
      (aiming sqrt inp s).probe.pos = s.spawnPos := by
  intro speed spawnScreen dx dy len vel
  obtain ⟨b, n, he⟩ := edit_frame inp s
  have hprobe := aiming_enter_probe sqrt inp s hE
  have hv : vel = (confirm sqrt inp.mouse
      (backspace inp.keyBackspace (typeChars inp.chars s))).probe.vel := by
    show (aiming sqrt inp s).probe.vel = _
    rw [hprobe]
  have hsp : speed = launchSpeed b := by
    show launchSpeed (backspace inp.keyBackspace (typeChars inp.chars s)).speedInput = _
    rw [he]
  have hspeed : 0 ≤ speed := launchSpeed_nonneg _
  refine ⟨?_, ?_, ?_⟩
  · intro hlen
    have hlen' : len > 1.0 := by norm_num; exact hlen
    have hvel : vel = { x := speed * (dx / len), y := speed * (-dy / len) } := by
      rw [hv, hsp, he]
      simp only [confirm]
      rw [if_pos hlen']
      simp only [mul_comm]
    refine ⟨hvel, ?_⟩
    rw [hvel]
    have hl0 : len ≠ 0 := ne_of_gt (lt_trans one_pos hlen)
    have hl2 : len * len = dx * dx + dy * dy :=
      (hsqrt _ (add_nonneg (mul_self_nonneg dx) (mul_self_nonneg dy))).2
    have : speed * (dx / len) * (speed * (dx / len)) + speed * (-dy / len) * (speed * (-dy / len))
        = speed * speed := by
      field_simp
      rw [hl2]
      ring
    simp only
    rw [this]
    exact hsqrt.sqrt_mul_self speed hspeed
  · intro hlen
    have hlen' : ¬ len > 1.0 := by norm_num; exact not_lt.mp hlen
    rw [hv, he]
    simp only [confirm]
    rw [if_neg hlen']
  · rw [hprobe, he]
    simp only [confirm]
    split_ifs <;> rfl

/-- The scenario of the specification: speed text `"1000"`, candidate
`(1e7, 0)`, the pointer 100 pixels straight above the candidate on screen;
Enter gives velocity `(0, 1000)` and position `(1e7, 0)`. -/
theorem confirm_launch_witness :
    IsSqrt Real.sqrt ∧ (enterAbove : Input ℝ).keyEnter = true ∧
      (aiming Real.sqrt enterAbove (aimingState Real.sqrt)).probe.vel = { x := 0, y := 1000 } ∧
      (aiming Real.sqrt enterAbove (aimingState Real.sqrt)).probe.pos = { x := 1e7, y := 0 } := by
  have h := confirm_launch Real.sqrt realSqrt_isSqrt enterAbove (aimingState Real.sqrt) rfl
  have hsp : launchSpeed (backspace (enterAbove : Input ℝ).keyBackspace
      (typeChars (enterAbove : Input ℝ).chars (aimingState Real.sqrt))).speedInput
        = (1000 : ℝ) := by
    show launchSpeed (initial Real.sqrt).speedInput = (1000 : ℝ)
    unfold launchSpeed atof
    rw [initial_speed]
    norm_num
  have hscr : ToScreen (aimingState Real.sqrt).spawnPos screenWidth screenHeight
      (aimingState Real.sqrt).metersPerPixel (aimingState Real.sqrt).cameraCenter
        = { x := 605, y := 400 } := by
    norm_num [ToScreen, aimingState, initial, screenWidth, screenHeight]
  have hmouse : (enterAbove : Input ℝ).mouse = { x := 605, y := 300 } := rfl
  have hs : Real.sqrt (10000 : ℝ) = 100 := by
    rw [show (10000 : ℝ) = 100 ^ 2 by norm_num]
    exact Real.sqrt_sq (by norm_num)
  dsimp only at h
  rw [hsp, hscr, hmouse] at h
  norm_num [hs] at h
  refine ⟨realSqrt_isSqrt, rfl, h.1.1, ?_⟩
  rw [h.2]
  rfl

/-- Claim C7: in `SPAWN_AIMING`, handling a frame's input with Enter pressed
leaves `probeTrail` empty, `trailTimer = 0`, `probeAlive = true`,
`spawnState = SPAWN_IDLE` and `simulationPaused = false`; of the probe only
position and velocity are written, so its mass, radius and flags are as
before, and the Earth and the Moon are as before in every field. -/
theorem confirm_resets (sqrt : α → α) (inp : Input α) (s : Sim α)
    (hst : s.spawnState = SpawnState.SPAWN_AIMING) (hE : inp.keyEnter = true) :
    (handleInput sqrt inp s).probeTrail = [] ∧
      (handleInput sqrt inp s).trailTimer = 0 ∧
      (handleInput sqrt inp s).probeAlive = true ∧
      (handleInput sqrt inp s).spawnState = SpawnState.SPAWN_IDLE ∧
      (handleInput sqrt inp s).simulationPaused = false ∧
      (handleInput sqrt inp s).probe.mass = s.probe.mass ∧
      (handleInput sqrt inp s).probe.radius = s.probe.radius ∧
      (handleInput sqrt inp s).probe.affectedByGravity = s.probe.affectedByGravity ∧
      (handleInput sqrt inp s).probe.affectsOthers = s.probe.affectsOthers ∧
      (handleInput sqrt inp s).earth = s.earth ∧
      (handleInput sqrt inp s).moon = s.moon := by
  obtain ⟨m, c, t, hv⟩ := view_frame inp s
  obtain ⟨b, n, he⟩ := edit_frame inp
    (timescaleControl inp (panControl inp (zoomControl inp.wheel s)))
  have hc := confirm_fields sqrt inp.mouse (backspace inp.keyBackspace (typeChars inp.chars
    (timescaleControl inp (panControl inp (zoomControl inp.wheel s)))))
  rw [he, hv] at hc
  rw [handleInput_aiming sqrt inp s hst]
  rcases aiming_enter sqrt inp
    (timescaleControl inp (panControl inp (zoomControl inp.wheel s))) hE with h | h
  · rw [h, he, hv]
    exact hc
  · rw [h, he, hv]
    exact hc

/-- The confirm of the specification's scenario. -/
theorem confirm_resets_witness :
    ((aimingState sqrtQ).spawnState = SpawnState.SPAWN_AIMING ∧
        (enterAbove : Input ℚ).keyEnter = true) ∧
      (handleInput sqrtQ enterAbove (aimingState sqrtQ)).probeTrail = [] ∧
      (handleInput sqrtQ enterAbove (aimingState sqrtQ)).trailTimer = 0 ∧
      (handleInput sqrtQ enterAbove (aimingState sqrtQ)).probeAlive = true ∧
      (handleInput sqrtQ enterAbove (aimingState sqrtQ)).spawnState = SpawnState.SPAWN_IDLE ∧
      (handleInput sqrtQ enterAbove (aimingState sqrtQ)).simulationPaused = false ∧
      (handleInput sqrtQ enterAbove (aimingState sqrtQ)).probe.mass
        = (aimingState sqrtQ).probe.mass ∧
      (handleInput sqrtQ enterAbove (aimingState sqrtQ)).probe.radius
        = (aimingState sqrtQ).probe.radius ∧
      (handleInput sqrtQ enterAbove (aimingState sqrtQ)).probe.affectedByGravity
        = (aimingState sqrtQ).probe.affectedByGravity ∧
      (handleInput sqrtQ enterAbove (aimingState sqrtQ)).probe.affectsOthers
        = (aimingState sqrtQ).probe.affectsOthers ∧
      (handleInput sqrtQ enterAbove (aimingState sqrtQ)).earth = (aimingState sqrtQ).earth ∧
      (handleInput sqrtQ enterAbove (aimingState sqrtQ)).moon = (aimingState sqrtQ).moon :=
  ⟨⟨rfl, rfl⟩, confirm_resets sqrtQ enterAbove (aimingState sqrtQ) rfl rfl⟩

/-- Claim C8, as the code has it: in `SPAWN_AIMING` or `SPAWN_PLACING`, for
every frame input in which Escape is pressed and, when the state is
`SPAWN_AIMING`, Enter is not pressed, input handling ends with
`spawnState = SPAWN_IDLE` and `simulationPaused = false` and leaves the probe
(position and velocity included), its liveness and the trail exactly as they
were before the frame's input handling. -/
theorem cancel_lossless (sqrt : α → α) (inp : Input α) (s : Sim α)
    (hst : s.spawnState = SpawnState.SPAWN_AIMING ∨ s.spawnState = SpawnState.SPAWN_PLACING)
    (hEsc : inp.keyEscape = true)
    (hE : s.spawnState = SpawnState.SPAWN_AIMING → inp.keyEnter = false) :
    (handleInput sqrt inp s).spawnState = SpawnState.SPAWN_IDLE ∧
      (handleInput sqrt inp s).simulationPaused = false ∧
      (handleInput sqrt inp s).probe = s.probe ∧
      (handleInput sqrt inp s).probeAlive = s.probeAlive ∧
      (handleInput sqrt inp s).probeTrail = s.probeTrail := by
  obtain ⟨m, c, t, hv⟩ := view_frame inp s
  rcases hst with hst | hst
  · obtain ⟨b, n, he⟩ := edit_frame inp
      (timescaleControl inp (panControl inp (zoomControl inp.wheel s)))
    rw [handleInput_aiming sqrt inp s hst]
    unfold aiming
    simp only [he, hE hst, hEsc, Bool.false_eq_true, if_false, if_true]
    rw [hv]
    exact ⟨rfl, rfl, rfl, rfl, rfl⟩
  · rw [handleInput_placing sqrt inp s hst]
    unfold placing
    simp only [hEsc, if_true]
    rw [hv]
    split_ifs <;> exact ⟨rfl, rfl, rfl, rfl, rfl⟩

/-- Escape alone while aiming at `(1e7, 0)`. -/
theorem cancel_lossless_witness :
    ((aimingState sqrtQ).spawnState = SpawnState.SPAWN_AIMING ∧
        (escapeOnly : Input ℚ).keyEscape = true ∧ (escapeOnly : Input ℚ).keyEnter = false) ∧
      (handleInput sqrtQ escapeOnly (aimingState sqrtQ)).spawnState = SpawnState.SPAWN_IDLE ∧
      (handleInput sqrtQ escapeOnly (aimingState sqrtQ)).simulationPaused = false ∧
      (handleInput sqrtQ escapeOnly (aimingState sqrtQ)).probe = (aimingState sqrtQ).probe ∧
      (handleInput sqrtQ escapeOnly (aimingState sqrtQ)).probeAlive
        = (aimingState sqrtQ).probeAlive ∧
      (handleInput sqrtQ escapeOnly (aimingState sqrtQ)).probeTrail
        = (aimingState sqrtQ).probeTrail :=
  ⟨⟨rfl, rfl, rfl⟩,
    cancel_lossless sqrtQ escapeOnly (aimingState sqrtQ) (Or.inl rfl) rfl (fun _ => rfl)⟩

/-- Claim C8 fails as stated: in the aiming state, which two clicks reach
from the initial state, a frame in which Escape is pressed together with Enter
moves the probe from `(6.771e6, 0)` to the candidate position `(1e7, 0)`. -/
theorem cancel_with_enter_moves_probe :
    Reachable sqrtQ (aimingState sqrtQ) ∧
      (aimingState sqrtQ).spawnState = SpawnState.SPAWN_AIMING ∧
      (enterAndEscape : Input ℚ).keyEscape = true ∧
      (aimingState sqrtQ).probe.pos = { x := 6771000, y := 0 } ∧
      (handleInput sqrtQ enterAndEscape (aimingState sqrtQ)).probe.pos
        = { x := 10000000, y := 0 } ∧
      (handleInput sqrtQ enterAndEscape (aimingState sqrtQ)).probe.pos
        ≠ (aimingState sqrtQ).probe.pos := by
  have h1 : (aimingState sqrtQ).probe.pos = { x := 6771000, y := 0 } := by
    norm_num [aimingState, initial, probe0]
  have h2 : (handleInput sqrtQ enterAndEscape (aimingState sqrtQ)).probe.pos
      = { x := 10000000, y := 0 } := by
    rw [handleInput_enter_pos sqrtQ enterAndEscape (aimingState sqrtQ) rfl rfl]
    norm_num [aimingState]
  refine ⟨aimingState_reachable sqrtQ, rfl, rfl, h1, h2, ?_⟩
  rw [h1, h2]
  norm_num

/-- Claim C9: for a well-formed speed buffer holding the text `t` and every
sequence `cs` of typed characters (positive key codes), the text after the
typing loop is `t` followed by the characters of `cs` that are digits or
`'.'`, in order, cut off at 31 characters in all; every other character is
ignored. -/
theorem typed_text (cs : List Int) (s : Sim α) (hwf : SpeedOK s) (hpos : ∀ k ∈ cs, 0 < k) :
    cString (typeChars cs s).speedInput
      = (cString s.speedInput ++ (cs.filter isSpeedKey).map castChar).take 31 := by
  obtain ⟨hok, htext⟩ := typeChars_append cs s hwf hpos
  rw [hok.cString_eq, hwf.cString_eq, htext]

/-- Typing `"12a3.5"` into an empty speed text yields `"123.5"`. -/
theorem typed_text_witness :
    (SpeedOK (emptyText sqrtQ) ∧
        ∀ k ∈ "12a3.5".toList.map (fun c => (c.toNat : Int)), 0 < k) ∧
      cString (emptyText sqrtQ).speedInput = [] ∧
      cString (typeChars ("12a3.5".toList.map (fun c => (c.toNat : Int)))
        (emptyText sqrtQ)).speedInput = "123.5".toList := by
  have h := typed_text ("12a3.5".toList.map (fun c => (c.toNat : Int))) (emptyText sqrtQ)
    emptyText_ok (by decide)
  refine ⟨⟨emptyText_ok, by decide⟩, by decide, ?_⟩
  rw [h]
  decide

/-- Claim C10, as the code has it: for every speed text of digits and `'.'`
stored in the buffer, the launch speed used on confirm is not negative and is
the value of the longest decimal number that starts the text: the leading
digits, then, if a `'.'` follows, the digits behind that `'.'`; whatever comes
after (a second `'.'` and all behind it) is ignored.  It is 0 when that number
has no digit, as for the empty text and for `"."`. -/
theorem launch_speed_of_text (text rest : List Char)
    (hchars : ∀ c ∈ text, c.isDigit = true ∨ c = '.') :
    (launchSpeed (text ++ NUL :: rest) : α)
        = (digitsValue (text.takeWhile Char.isDigit ++
              (text.dropWhile Char.isDigit).tail.takeWhile Char.isDigit) : α)
            / 10 ^ ((text.dropWhile Char.isDigit).tail.takeWhile Char.isDigit).length ∧
      (0 : α) ≤ launchSpeed (text ++ NUL :: rest) ∧
      (text.takeWhile Char.isDigit = [] →
        (text.dropWhile Char.isDigit).tail.takeWhile Char.isDigit = [] →
        (launchSpeed (text ++ NUL :: rest) : α) = 0) := by
  have main : (launchSpeed (text ++ NUL :: rest) : α)
      = (digitsValue (text.takeWhile Char.isDigit ++
            (text.dropWhile Char.isDigit).tail.takeWhile Char.isDigit) : α)
          / 10 ^ ((text.dropWhile Char.isDigit).tail.takeWhile Char.isDigit).length := ?_
  · refine ⟨main, launchSpeed_nonneg _, ?_⟩
    intro h1 h2
    rw [main, h1, h2]
    simp [digitsValue]
  unfold launchSpeed atof
  rw [cString_text text rest hchars, parseDecimal_text text hchars]
  generalize text.takeWhile Char.isDigit = ip
  generalize (text.dropWhile Char.isDigit).tail.takeWhile Char.isDigit = fp
  by_cases hc : (ip.isEmpty && fp.isEmpty) = true
  · rw [if_pos hc]
    simp only [Bool.and_eq_true, List.isEmpty_iff] at hc
    rw [hc.1, hc.2]
    simp [digitsValue]
  · rw [if_neg hc]
    have hv : (0 : α) ≤ (digitsValue (ip ++ fp) : α) * (10 : α) ^ (-(fp.length : Int)) :=
      mul_nonneg (Nat.cast_nonneg _) (zpow_nonneg (by norm_num) _)
    simp only [Bool.false_eq_true, if_false]
    rw [if_neg (not_lt.mpr hv), zpow_neg, zpow_natCast, div_eq_mul_inv]
/-- The text `"1.2.3"` gives the launch speed 1.2. -/
theorem launch_speed_of_text_witness :
    (∀ c ∈ "1.2.3".toList, c.isDigit = true ∨ c = '.') ∧
      (launchSpeed ("1.2.3".toList ++ NUL :: List.replicate 26 NUL) : ℚ) = 6 / 5 := by
  have h : (launchSpeed ("1.2.3".toList ++ NUL :: List.replicate 26 NUL) : ℚ) = _ :=
    (launch_speed_of_text "1.2.3".toList (List.replicate 26 NUL) (by decide)).1
  refine ⟨by decide, ?_⟩
  rw [h]
  have h1 : digitsValue (List.takeWhile Char.isDigit "1.2.3".toList ++
      List.takeWhile Char.isDigit (List.dropWhile Char.isDigit "1.2.3".toList).tail) = 12 := by
    decide
  have h2 : (List.takeWhile Char.isDigit
      (List.dropWhile Char.isDigit "1.2.3".toList).tail).length = 1 := by decide
  rw [h1, h2]
  norm_num

/-- Claim C10 fails as stated: the text `"1.2.3"` does not give the launch
speed 0 but 1.2, the value of its longest numeric start `"1.2"`. -/
theorem launch_speed_not_zero :
    (launchSpeed ("1.2.3".toList ++ List.replicate 27 NUL) : ℚ) = 6 / 5 ∧
      (launchSpeed ("1.2.3".toList ++ List.replicate 27 NUL) : ℚ) ≠ 0 := by
  have hp : parseDecimal (cString ("1.2.3".toList ++ List.replicate 27 NUL))
      = some (false, 12, -1) := by decide
  have h : (launchSpeed ("1.2.3".toList ++ List.replicate 27 NUL) : ℚ) = 6 / 5 := by
    unfold launchSpeed atof
    rw [hp]
    norm_num
  refine ⟨h, ?_⟩
  rw [h]
  norm_num


/-- Claim C11: for every unpaused state, one physics step of
`simDt = 2 * maxStep` gives the same state (Moon, probe, liveness, trail,
trail timer and all the rest) as two physics steps in a row of
`simDt = maxStep` each. -/
theorem substep_equivalence (sqrt : α → α) (s : Sim α) (realDt1 realDt2 : α)
    (hp : s.simulationPaused = false)
    (h1 : realDt1 * s.timeScale = 2 * maxStep α)
    (h2 : realDt2 * s.timeScale = maxStep α) :
    physicsStep sqrt realDt1 s = physicsStep sqrt realDt2 (physicsStep sqrt realDt2 s) := by
  obtain ⟨hp2, ht2⟩ := physicsStep_clock sqrt realDt2 s
  rw [physicsStep_unpaused sqrt realDt1 s hp,
    physicsStep_unpaused sqrt realDt2 (physicsStep sqrt realDt2 s) (hp2.trans hp), ht2,
    physicsStep_unpaused sqrt realDt2 s hp, h1, h2, stepCount_maxStep, stepCount_two_maxStep]
  have e1 : (2 * maxStep α) / ((2 : Int) : α) = maxStep α := by
    unfold maxStep; norm_num
  have e2 : maxStep α / ((1 : Int) : α) = maxStep α := by
    unfold maxStep; norm_num
  rw [e1, e2]
  rfl

/-- The initial state at timescale 1: one frame of 20 s against two frames
of 10 s. -/
theorem substep_equivalence_witness :
    ((initial sqrtQ).simulationPaused = false ∧
        (20 : ℚ) * (initial sqrtQ).timeScale = 2 * maxStep ℚ ∧
        (10 : ℚ) * (initial sqrtQ).timeScale = maxStep ℚ) ∧
      physicsStep sqrtQ 20 (initial sqrtQ)
        = physicsStep sqrtQ 10 (physicsStep sqrtQ 10 (initial sqrtQ)) :=
  ⟨⟨rfl, by norm_num [initial, maxStep], by norm_num [initial, maxStep]⟩,
    substep_equivalence sqrtQ (initial sqrtQ) 20 10 rfl (by norm_num [initial, maxStep])
      (by norm_num [initial, maxStep])⟩

/-- Claim C12: in every reachable state `1.0 <= metersPerPixel <= 1.0e9` and
`0.125 <= timeScale <= 100000.0`; a zoom step or a timescale step that would
leave the range ends on the bound: zooming in below 1 gives 1, zooming out
above 1e9 gives 1e9, doubling above 100000 gives 100000, halving below 0.125
gives 0.125.  For every input the frame sets `metersPerPixel` to the value
divided by 1.15 (wheel up) or multiplied by 1.15 (wheel down) and clamped into
`[1, 1e9]`, and while idle sets `timeScale` to the doubled value clamped at
100000 (Up), then the halved value clamped at 0.125 (Down). -/
theorem zoom_timescale_clamped (sqrt : α → α) (s : Sim α) (hs : Reachable sqrt s) :
    (1.0 ≤ s.metersPerPixel ∧ s.metersPerPixel ≤ 1.0e9) ∧
      (0.125 ≤ s.timeScale ∧ s.timeScale ≤ 100000.0) ∧
      (∀ wheel : α, 0 < wheel → s.metersPerPixel / 1.15 < 1.0 →
        (zoomControl wheel s).metersPerPixel = 1.0) ∧
      (∀ wheel : α, wheel < 0 → s.metersPerPixel * 1.15 > 1.0e9 →
        (zoomControl wheel s).metersPerPixel = 1.0e9) ∧
      (∀ inp : Input α, s.spawnState = SpawnState.SPAWN_IDLE → inp.keyUp = true →
        inp.keyDown = false → s.timeScale * 2.0 > 100000.0 →
        (timescaleControl inp s).timeScale = 100000.0) ∧
      (∀ inp : Input α, s.spawnState = SpawnState.SPAWN_IDLE → inp.keyDown = true →
        inp.keyUp = false → s.timeScale / 2.0 < 0.125 →
        (timescaleControl inp s).timeScale = 0.125) ∧
      (∀ inp : Input α,
        (frame sqrt inp s).metersPerPixel
          = if 0 < inp.wheel then min (max (s.metersPerPixel / 1.15) 1.0) 1.0e9
            else if inp.wheel < 0 then min (max (s.metersPerPixel * 1.15) 1.0) 1.0e9
            else s.metersPerPixel) ∧
      (∀ inp : Input α, s.spawnState = SpawnState.SPAWN_IDLE →
        (frame sqrt inp s).timeScale
          = if inp.keyDown = true then
              max ((if inp.keyUp = true then min (s.timeScale * 2.0) 100000.0
                    else s.timeScale) / 2.0) 0.125
            else if inp.keyUp = true then min (s.timeScale * 2.0) 100000.0
            else s.timeScale) := by
  obtain ⟨hm, ht⟩ := reachable_viewInRange sqrt s hs
  refine ⟨hm, ht, ?_, ?_, ?_, ?_, ?_, ?_⟩
  · intro wheel hw hlow
    unfold zoomControl
    rw [if_pos (ne_of_gt hw)]
    dsimp only
    rw [if_pos hw, if_neg (not_lt.mpr hw.le), if_pos hlow, if_neg (by norm_num)]
  · intro wheel hw hhigh
    unfold zoomControl
    rw [if_pos (ne_of_lt hw)]
    dsimp only
    have h1 : ¬ (s.metersPerPixel * 1.15 < 1.0) := by
      norm_num at hhigh ⊢
      linarith
    rw [if_neg (not_lt.mpr hw.le), if_pos hw, if_neg h1, if_pos hhigh]
  · intro inp hi hu hd hbig
    unfold timescaleControl
    rw [if_pos hi]
    simp only [hu, hd, if_true, Bool.false_eq_true, if_false]
    rw [if_pos hbig]
  · intro inp hi hd hu hsmall
    unfold timescaleControl
    rw [if_pos hi]
    simp only [hu, hd, if_true, Bool.false_eq_true, if_false]
    rw [if_pos hsmall]
  · intro inp
    rw [frame_metersPerPixel, zoomControl_value]
  · intro inp hi
    rw [frame_timeScale, timescaleControl_value inp s hi]

/-- The clamps are reached.  Sixteen frames with Up take the timescale from 1
to 65536, and the seventeenth, which would double it to 131072, leaves it at
100000.  After 104 frames with the wheel turned up from 2e6 m per pixel
`metersPerPixel` is 1, and a further notch, which would take it to 1/1.15,
leaves it at 1. -/
theorem zoom_timescale_clamped_witness :
    (Reachable sqrtQ (run sqrtQ (List.replicate 16 pressUp) (initial sqrtQ)) ∧
        Reachable sqrtQ (run sqrtQ (List.replicate 104 wheelUp) (initial sqrtQ))) ∧
      (run sqrtQ (List.replicate 16 pressUp) (initial sqrtQ)).timeScale = 65536 ∧
      (frame sqrtQ pressUp (run sqrtQ (List.replicate 16 pressUp) (initial sqrtQ))).timeScale
        = 100000 ∧
      (run sqrtQ (List.replicate 104 wheelUp) (initial sqrtQ)).metersPerPixel = 1 ∧
      (frame sqrtQ wheelUp
        (run sqrtQ (List.replicate 104 wheelUp) (initial sqrtQ))).metersPerPixel = 1 := by
  have hr16 : Reachable sqrtQ (run sqrtQ (List.replicate 16 pressUp) (initial sqrtQ)) := by
    apply run_reachable sqrtQ _ _ Reachable.init
    intro inp hinp
    rw [List.eq_of_mem_replicate hinp]
    norm_num [pressUp, quietInput]
  have hr104 : Reachable sqrtQ (run sqrtQ (List.replicate 104 wheelUp) (initial sqrtQ)) := by
    apply run_reachable sqrtQ _ _ Reachable.init
    intro inp hinp
    rw [List.eq_of_mem_replicate hinp]
    norm_num [wheelUp, quietInput]
  have ht1 : (initial sqrtQ).timeScale = 1 := by norm_num [initial]
  obtain ⟨hts, hidle⟩ := run_pressUp sqrtQ 16 (initial sqrtQ) rfl (by rw [ht1]; norm_num)
    (by rw [ht1]; norm_num)
  rw [ht1] at hts
  have hts16 : (run sqrtQ (List.replicate 16 pressUp) (initial sqrtQ)).timeScale = 65536 := by
    rw [hts]
    norm_num
  have h16 := zoom_timescale_clamped sqrtQ _ hr16
  have h104 := zoom_timescale_clamped sqrtQ _ hr104
  have hm104 : (run sqrtQ (List.replicate 104 wheelUp) (initial sqrtQ)).metersPerPixel = 1 := by
    have hle := run_wheelUp sqrtQ 104 (initial sqrtQ) 2000000
      (by norm_num [initial])
    have hsmall : max (1 : ℚ) (2000000 / 1.15 ^ 104) = 1 := by
      apply max_eq_left
      norm_num
    rw [hsmall] at hle
    have hge := h104.1.1
    norm_num at hge
    exact le_antisymm hle hge
  refine ⟨⟨hr16, hr104⟩, hts16, ?_, hm104, ?_⟩
  · rw [h16.2.2.2.2.2.2.2 pressUp hidle, hts16]
    have hd : (pressUp : Input ℚ).keyDown = false := rfl
    have hu : (pressUp : Input ℚ).keyUp = true := rfl
    rw [hd, hu]
    norm_num
  · rw [h104.2.2.2.2.2.2.1 wheelUp, hm104]
    have hw : (0 : ℚ) < (wheelUp : Input ℚ).wheel := by
      show (0 : ℚ) < 1
      norm_num
    rw [if_pos hw]
    norm_num

/-- Claim C13: for every frame that begins with `spawnState` other than
`SPAWN_IDLE`, `timeScale` after the frame equals `timeScale` before it,
whatever is pressed in that frame. -/
theorem timescale_frozen_while_spawning (sqrt : α → α) (inp : Input α) (s : Sim α)
    (h : s.spawnState ≠ SpawnState.SPAWN_IDLE) :
    (frame sqrt inp s).timeScale = s.timeScale := by
  have hzs : (zoomControl inp.wheel s).spawnState = s.spawnState := by
    unfold zoomControl
    split_ifs <;> rfl
  have hzt : (zoomControl inp.wheel s).timeScale = s.timeScale := by
    unfold zoomControl
    split_ifs <;> rfl
  have hts : timescaleControl inp (panControl inp (zoomControl inp.wheel s))
      = panControl inp (zoomControl inp.wheel s) := by
    unfold timescaleControl
    have : (panControl inp (zoomControl inp.wheel s)).spawnState ≠ SpawnState.SPAWN_IDLE := by
      show (zoomControl inp.wheel s).spawnState ≠ _
      rw [hzs]
      exact h
    rw [if_neg this]
  unfold frame
  rw [(physicsStep_clock sqrt inp.realDt _).2]
  unfold handleInput
  rw [(spawnControl_view sqrt inp _).2.2, hts]
  exact hzt

/-- The Up arrow pressed while aiming leaves the timescale at 1. -/
theorem timescale_frozen_while_spawning_witness :
    (aimingState sqrtQ).spawnState ≠ SpawnState.SPAWN_IDLE ∧
      (pressUp : Input ℚ).keyUp = true ∧
      (frame sqrtQ pressUp (aimingState sqrtQ)).timeScale = (aimingState sqrtQ).timeScale :=
  ⟨by decide, rfl, timescale_frozen_while_spawning sqrtQ pressUp (aimingState sqrtQ) (by decide)⟩

/-- Claim C16: for every state with `probeAlive = false` and every frame
time, the physics step changes the Moon and nothing else: the probe's
position and velocity, `probeTrail` and `trailTimer` are as before. -/
theorem dead_probe_frozen (sqrt : α → α) (realDt : α) (s : Sim α)
    (hd : s.probeAlive = false) :
    physicsStep sqrt realDt s = { s with moon := (physicsStep sqrt realDt s).moon } ∧
      (physicsStep sqrt realDt s).probe.pos = s.probe.pos ∧
      (physicsStep sqrt realDt s).probe.vel = s.probe.vel ∧
      (physicsStep sqrt realDt s).probeTrail = s.probeTrail ∧
      (physicsStep sqrt realDt s).trailTimer = s.trailTimer := by
  have main : physicsStep sqrt realDt s = { s with moon := (physicsStep sqrt realDt s).moon } := by
    unfold physicsStep
    split_ifs
    · exact substeps_dead_eq sqrt _ _ s hd
    · rfl
  refine ⟨main, ?_, ?_, ?_, ?_⟩ <;> rw [main]

/-- A crashed probe in the initial configuration through a physics step of
25 s. -/
theorem dead_probe_frozen_witness :
    ({ initial sqrtQ with probeAlive := false } : Sim ℚ).probeAlive = false ∧
      (physicsStep sqrtQ 25 { initial sqrtQ with probeAlive := false }).probe.pos
        = (initial sqrtQ).probe.pos ∧
      (physicsStep sqrtQ 25 { initial sqrtQ with probeAlive := false }).probe.vel
        = (initial sqrtQ).probe.vel ∧
      (physicsStep sqrtQ 25 { initial sqrtQ with probeAlive := false }).probeTrail = [] ∧
      (physicsStep sqrtQ 25 { initial sqrtQ with probeAlive := false }).trailTimer
        = (initial sqrtQ).trailTimer :=
  ⟨rfl, (dead_probe_frozen sqrtQ 25 { initial sqrtQ with probeAlive := false } rfl).2⟩

/-- Claim C14, as the code has it: for every `simDt >= 0` whose ceiling
`ceil(simDt / maxStep)` fits in an `int`, the physics step uses `steps = 1`
when `simDt <= maxStep` and `steps = ceil(simDt / maxStep)` otherwise, and
`h = simDt / steps`; so `steps >= 1`, `steps * h = simDt` and
`0 <= h <= maxStep = 10.0`. -/
theorem substep_count (sqrt : α → α) (s : Sim α) (realDt : α)
    (h0 : 0 ≤ realDt * s.timeScale)
    (hfit : ⌈realDt * s.timeScale / maxStep α⌉ ≤ INT_MAX) :
    (s.simulationPaused = false →
        physicsStep sqrt realDt s
          = substeps sqrt (realDt * s.timeScale / (stepCount (realDt * s.timeScale) : α))
              (stepCount (realDt * s.timeScale)).toNat s) ∧
      (realDt * s.timeScale ≤ maxStep α → stepCount (realDt * s.timeScale) = 1) ∧
      (maxStep α < realDt * s.timeScale →
        stepCount (realDt * s.timeScale) = ⌈realDt * s.timeScale / maxStep α⌉) ∧
      1 ≤ stepCount (realDt * s.timeScale) ∧
      (stepCount (realDt * s.timeScale) : α)
          * (realDt * s.timeScale / (stepCount (realDt * s.timeScale) : α))
        = realDt * s.timeScale ∧
      0 ≤ realDt * s.timeScale / (stepCount (realDt * s.timeScale) : α) ∧
      realDt * s.timeScale / (stepCount (realDt * s.timeScale) : α) ≤ maxStep α ∧
      maxStep α = 10.0 := by
  obtain ⟨a, b, c⟩ := stepCount_spec (realDt * s.timeScale) hfit
  obtain ⟨d, e, f⟩ := stepSize_spec (realDt * s.timeScale) h0 hfit
  exact ⟨physicsStep_unpaused sqrt realDt s, a, b, c, d, e, f, rfl⟩

/-- A frame of 25 s from the initial state: three substeps of 25/3 s. -/
theorem substep_count_witness :
    ((0 : ℚ) ≤ 25 * (initial sqrtQ).timeScale ∧
        ⌈(25 : ℚ) * (initial sqrtQ).timeScale / maxStep ℚ⌉ ≤ INT_MAX) ∧
      stepCount ((25 : ℚ) * (initial sqrtQ).timeScale) = 3 ∧
      physicsStep sqrtQ 25 (initial sqrtQ) = substeps sqrtQ (25 / 3) 3 (initial sqrtQ) := by
  have h0 : (0 : ℚ) ≤ 25 * (initial sqrtQ).timeScale := by norm_num [initial]
  have hfit : ⌈(25 : ℚ) * (initial sqrtQ).timeScale / maxStep ℚ⌉ ≤ INT_MAX := by
    rw [ceil_25]
    decide
  have h := substep_count sqrtQ (initial sqrtQ) 25 h0 hfit
  have hbig : maxStep ℚ < 25 * (initial sqrtQ).timeScale := by norm_num [initial, maxStep]
  have hs : stepCount ((25 : ℚ) * (initial sqrtQ).timeScale) = 3 := by
    rw [h.2.2.1 hbig, ceil_25]
  refine ⟨⟨h0, hfit⟩, hs, ?_⟩
  have ht : (initial sqrtQ).timeScale = 1 := by norm_num [initial]
  have e : (25 : ℚ) * 1 / ((3 : Int) : ℚ) = 25 / 3 := by norm_num
  rw [h.1 rfl, hs, ht, e]
  rfl

/-- Claim C14 fails as stated: for `simDt = 3e10` the ceiling of
`simDt / maxStep` is 3e9, which no `int` holds; the cast yields `INT_MIN`, so
`steps` is neither that ceiling nor at least 1. -/
theorem step_count_overflow :
    (0 : ℚ) ≤ 30000000000 ∧
      ⌈(30000000000 : ℚ) / maxStep ℚ⌉ = 3000000000 ∧
      stepCount (30000000000 : ℚ) = -2147483648 ∧
      stepCount (30000000000 : ℚ) ≠ ⌈(30000000000 : ℚ) / maxStep ℚ⌉ ∧
      ¬ (1 ≤ stepCount (30000000000 : ℚ)) := by
  have hc : ⌈(30000000000 : ℚ) / maxStep ℚ⌉ = 3000000000 := by
    rw [Int.ceil_eq_iff]
    norm_num [maxStep]
  have hs : stepCount (30000000000 : ℚ) = -2147483648 := by
    unfold stepCount
    rw [if_pos (by norm_num [maxStep]), hc]
    decide
  refine ⟨by norm_num, hc, hs, ?_, ?_⟩
  · rw [hs, hc]
    decide
  · rw [hs]
    decide


/-- Claim C15: one substep of size `h` with a live probe is the semi-implicit
Euler step of the specification: the Moon's velocity takes `h` times the
Earth's pull at the Moon's old position, then its position takes `h` times the
new velocity; the probe's velocity takes `h` times the sum of the Earth's pull
and the pull of the Moon at its new position, then its position takes `h`
times the new velocity; the Earth is unchanged. -/
theorem substep_is_euler (sqrt : α → α) (h : α) (s : Sim α) (ha : s.probeAlive = true) :
    (substep sqrt h s).moon = specMoonStep sqrt h s.earth s.moon ∧
      (substep sqrt h s).probe
        = specProbeStep sqrt h s.earth (specMoonStep sqrt h s.earth s.moon) s.probe ∧
      (substep sqrt h s).earth = s.earth := by
  obtain ⟨he, hm, hp, _⟩ := substep_alive sqrt h s ha
  rw [hm, hp, he, probeStep_eq_spec, moonStep_eq_spec]
  exact ⟨rfl, rfl, rfl⟩

/-- The first substep of 10 s from the initial state. -/
theorem substep_is_euler_witness :
    (initial sqrtQ).probeAlive = true ∧
      (substep sqrtQ 10 (initial sqrtQ)).moon = specMoonStep sqrtQ 10 earth0 moon0 ∧
      (substep sqrtQ 10 (initial sqrtQ)).probe
        = specProbeStep sqrtQ 10 earth0 (specMoonStep sqrtQ 10 earth0 moon0) (probe0 sqrtQ) ∧
      (substep sqrtQ 10 (initial sqrtQ)).earth = earth0 :=
  ⟨rfl, substep_is_euler sqrtQ 10 (initial sqrtQ) rfl⟩

/-- Claim C17: when a substep records a trail sample (the probe is alive
before and after the collision test and the timer reaches the interval), the
new trail is the old trail with the probe's position after the update appended
if the old trail had fewer than 10000 points, and the old trail without its
first point with that position appended if it had exactly 10000; the points
kept stay in their order, and the timer is back at 0. -/
theorem trail_sample (sqrt : α → α) (h : α) (s : Sim α) (ha : s.probeAlive = true)
    (hal : (substep sqrt h s).probeAlive = true)
    (ht : s.trailTimer + h ≥ TRAIL_INTERVAL α) :
    (s.probeTrail.length < 10000 →
        (substep sqrt h s).probeTrail = s.probeTrail ++ [(substep sqrt h s).probe.pos]) ∧
      (s.probeTrail.length = 10000 →
        (substep sqrt h s).probeTrail
          = s.probeTrail.tail ++ [(substep sqrt h s).probe.pos]) ∧
      (substep sqrt h s).trailTimer = 0 := by
  obtain ⟨hp, htm⟩ := substep_sample sqrt h s ha hal ht
  refine ⟨?_, ?_, htm⟩
  · intro hl
    rw [hp]
    unfold pushTrail MAX_TRAIL_POINTS
    simp only [List.length_append, List.length_singleton]
    rw [if_neg (by omega)]
  · intro hl
    rw [hp]
    unfold pushTrail MAX_TRAIL_POINTS
    simp only [List.length_append, List.length_singleton]
    rw [if_pos (by omega)]
    cases hc : s.probeTrail with
    | nil => rw [hc] at hl; simp at hl
    | cons x t => rfl

/-- The first substep of 10 s from the initial state records the first
sample. -/
theorem trail_sample_witness :
    ((initial Real.sqrt).probeAlive = true ∧
        (substep Real.sqrt 10 (initial Real.sqrt)).probeAlive = true ∧
        (initial Real.sqrt).trailTimer + 10 ≥ TRAIL_INTERVAL ℝ ∧
        (initial Real.sqrt).probeTrail.length < 10000) ∧
      (substep Real.sqrt 10 (initial Real.sqrt)).probeTrail
        = [(substep Real.sqrt 10 (initial Real.sqrt)).probe.pos] := by
  have ht : (initial Real.sqrt).trailTimer + 10 ≥ TRAIL_INTERVAL ℝ := by
    norm_num [initial, TRAIL_INTERVAL]
  have hl : (initial Real.sqrt).probeTrail.length < 10000 := by
    simp [initial]
  have h := trail_sample Real.sqrt 10 (initial Real.sqrt) rfl initial_alive_after ht
  exact ⟨⟨rfl, initial_alive_after, ht, hl⟩, h.1 hl⟩

/-- Claim C19: for every reachable `SPAWN_PLACING` state and every frame with
a click at a screen position outside the spawn button and no Escape, the next
state is `SPAWN_AIMING` with `spawnPos = ToWorld(click)` under the frame's
camera, and the clock stays paused; so a click at the screen projection of a
world point `w` records the candidate position `w`. -/
theorem place_candidate (sqrt : α → α) (s : Sim α) (hs : Reachable sqrt s) (inp : Input α)
    (hst : s.spawnState = SpawnState.SPAWN_PLACING)
    (hclick : inp.mousePressed = true)
    (hout : CheckCollisionPointRec inp.mouse (spawnButton : Rectangle α) = false)
    (hesc : inp.keyEscape = false) :
    (frame sqrt inp s).spawnState = SpawnState.SPAWN_AIMING ∧
      (frame sqrt inp s).spawnPos
        = ToWorld inp.mouse screenWidth screenHeight (frame sqrt inp s).metersPerPixel
            (frame sqrt inp s).cameraCenter ∧
      (frame sqrt inp s).simulationPaused = true ∧
      (∀ w : Vec2d α,
        inp.mouse = ToScreen w screenWidth screenHeight (frame sqrt inp s).metersPerPixel
            (frame sqrt inp s).cameraCenter →
        (frame sqrt inp s).spawnPos = w) := by
  have hpaused : s.simulationPaused = true := by
    have := reachable_paused sqrt s hs
    unfold pausedIffSpawning at this
    apply this.2
    rw [hst]
    decide
  obtain ⟨hmr, _⟩ := handleInput_viewInRange sqrt inp s (reachable_viewInRange sqrt s hs)
  obtain ⟨m, c, t, hv⟩ := view_frame inp s
  have hh : handleInput sqrt inp s
      = { s with metersPerPixel := m, cameraCenter := c, timeScale := t,
                 spawnPos := ToWorld inp.mouse screenWidth screenHeight m c,
                 spawnState := SpawnState.SPAWN_AIMING } := by
    rw [handleInput_placing sqrt inp s hst, hout, hv]
    unfold placing
    simp [hclick, hesc]
  have hf : frame sqrt inp s = handleInput sqrt inp s := by
    unfold frame physicsStep
    rw [hh]
    simp [hpaused]
  rw [hf, hh]
  rw [hh] at hmr
  have hm1 : (1.0 : α) ≤ m := hmr.1
  have hne : m ≠ 0 := by
    have : (0 : α) < m := lt_of_lt_of_le (by norm_num) hm1
    exact ne_of_gt this
  refine ⟨rfl, rfl, hpaused, ?_⟩
  intro w hw
  show ToWorld inp.mouse screenWidth screenHeight m c = w
  have hw2 : inp.mouse = ToScreen w screenWidth screenHeight m c := hw
  rw [hw2]
  exact toWorld_toScreen_of_ne w c _ _ m hne

/-- The scenario of the specification: from the placing state a click at
pixel `(605, 400)`, the projection of the world point `(1e7, 0)`, leads to
aiming with candidate position `(1e7, 0)`. -/
theorem place_candidate_witness :
    (Reachable sqrtQ (placingState sqrtQ) ∧
        (placingState sqrtQ).spawnState = SpawnState.SPAWN_PLACING ∧
        (clickPlace : Input ℚ).mousePressed = true ∧
        CheckCollisionPointRec (clickPlace : Input ℚ).mouse (spawnButton : Rectangle ℚ) = false ∧
        (clickPlace : Input ℚ).keyEscape = false) ∧
      (clickPlace : Input ℚ).mouse
        = ToScreen ({ x := 1e7, y := 0 } : Vec2d ℚ) screenWidth screenHeight 2.0e6
            { x := 0, y := 0 } ∧
      (frame sqrtQ clickPlace (placingState sqrtQ)).spawnState = SpawnState.SPAWN_AIMING ∧
      (frame sqrtQ clickPlace (placingState sqrtQ)).spawnPos = { x := 1e7, y := 0 } ∧
      (frame sqrtQ clickPlace (placingState sqrtQ)).simulationPaused = true := by
  have hout : CheckCollisionPointRec (clickPlace : Input ℚ).mouse (spawnButton : Rectangle ℚ)
      = false := by
    simp only [CheckCollisionPointRec, spawnButton, screenWidth, clickPlace, quietInput]
    norm_num
  have h := place_candidate sqrtQ (placingState sqrtQ) (placingState_reachable sqrtQ) clickPlace
    rfl rfl hout rfl
  have hproj : (clickPlace : Input ℚ).mouse
      = ToScreen ({ x := 1e7, y := 0 } : Vec2d ℚ) screenWidth screenHeight 2.0e6
          { x := 0, y := 0 } := by
    norm_num [clickPlace, quietInput, ToScreen, screenWidth, screenHeight]
  have hm : (frame sqrtQ clickPlace (placingState sqrtQ)).metersPerPixel = 2.0e6 := by
    rw [frame_clickPlace]
    rfl
  have hc : (frame sqrtQ clickPlace (placingState sqrtQ)).cameraCenter = { x := 0, y := 0 } := by
    rw [frame_clickPlace]
    norm_num [aimingState, initial]
  refine ⟨⟨placingState_reachable sqrtQ, rfl, rfl, hout, rfl⟩, hproj, h.1, ?_, h.2.2.1⟩
  apply h.2.2.2
  rw [hm, hc]
  exact hproj

/-- Claim C20: in every reachable state `0 <= speedInputLen <= 31`, the first
`speedInputLen` characters of `speedInput` are digits or `'.'`, the character
at index `speedInputLen` is the terminating NUL, and the buffer has its 32
bytes; every index a frame writes in the buffer is in `0..31`. -/
theorem speed_buffer_invariant (sqrt : α → α) (s : Sim α) (hs : Reachable sqrt s) :
    (0 ≤ s.speedInputLen ∧ s.speedInputLen ≤ 31) ∧
      (∀ c ∈ s.speedInput.take s.speedInputLen.toNat, c.isDigit = true ∨ c = '.') ∧
      s.speedInput[s.speedInputLen.toNat]? = some NUL ∧
      s.speedInput.length = 32 ∧
      (∀ inp : Input α, ∀ i ∈ bufferWrites inp s, 0 ≤ i ∧ i ≤ 31) := by
  have hok := reachable_speedOK sqrt s hs
  obtain ⟨hlen, h0, h31, hchars, hnul⟩ := reachable_speedOK sqrt s hs
  refine ⟨⟨h0, h31⟩, hchars, hnul, hlen, ?_⟩
  intro inp i hi
  obtain ⟨m, c, t, hv⟩ := view_frame inp s
  have hok0 : SpeedOK (timescaleControl inp (panControl inp (zoomControl inp.wheel s))) := by
    rw [hv]
    exact hok.congr rfl rfl
  unfold bufferWrites at hi
  split at hi
  · dsimp only at hi
    rw [List.mem_append] at hi
    rcases hi with hi | hi
    · exact typeCharsWrites_range _ _ hok0 i hi
    · exact backspaceWrites_range _ _ (typeChars_ok _ _ hok0) i hi
  · simp at hi

/-- Typing `12a3.5` and pressing Backspace while the text is `1000`: the
writes go to the indices 4 to 9. -/
theorem speed_buffer_invariant_witness :
    Reachable sqrtQ (aimingState sqrtQ) ∧
      (aimingState sqrtQ).speedInputLen = 4 ∧
      (aimingState sqrtQ).speedInput[4]? = some NUL ∧
      bufferWrites typeAndDelete (aimingState sqrtQ) = [4, 5, 5, 6, 6, 7, 7, 8, 8, 9, 8] ∧
      (∀ i ∈ bufferWrites typeAndDelete (aimingState sqrtQ), 0 ≤ i ∧ i ≤ 31) := by
  have h := speed_buffer_invariant sqrtQ (aimingState sqrtQ) (aimingState_reachable sqrtQ)
  refine ⟨aimingState_reachable sqrtQ, rfl, h.2.2.1, ?_, h.2.2.2.2 typeAndDelete⟩
  rfl


end Claims

end LunarSim
